import Mathlib

/-!
# Calendar event store: embedding of `internal/repository/postgres.go`

The six repository operations are embedded as pure functions over an explicit
model of the relational backend:

* the table `calendar` is a list of rows (`Event`), in physical order;
* every SQL constant of the source is a function on that list, with the
  positional parameters `$1, $2, $3` as arguments in the same order;
* the pool and the transaction handle are explicit state (`DB`, `Tx`); every
  call made on them is appended to a call log, and a `Faults` record fixes
  which backend call fails, and with which error, during one operation;
* the function-scope Go variable `err` and the deferred closure
  `if err != nil { tx.Rollback(ctx) }` are modelled explicitly: `deferred` is
  applied at every `return` to the value `err` holds at that point.

Modelling choices, where the source leaves the backend to PostgreSQL and pgx:

* dates are calendar days (the handlers only ever produce
  `time.Parse("2006-01-02", ...)` values), counted from 1970-01-01;
  `+ INTERVAL '1 month'` keeps the day of the month and clamps it to the length
  of the next month;
* operations run one at a time: a transaction sees the committed rows, and a
  successful `Commit` makes its rows the committed ones;
* a failed `Exec` or `Commit` changes no row; `Commit` ends the transaction
  whether it succeeds or not;
* `ORDER BY date` is a stable sort of the matching rows; statements about which
  rows are returned are stated up to order.

The service (`internal/service/service.go`), the handlers
(`internal/router/handlers/handlers.go`) and the startup code
(`internal/repository/storage.go`) follow the repository; the service and the
handlers work with any implementation of the repository interface.
-/

namespace Calendar

set_option linter.dupNamespace false

/-! ## Dates -/

/-! A calendar day is an `Int`: the number of days since 1970-01-01 in the
proleptic Gregorian calendar. -/

/-- Day number of the civil date `y-m-d`. -/
def daysFromCivil (y m d : Int) : Int :=
  let y1 := if m ≤ 2 then y - 1 else y
  let era := y1 / 400
  let yoe := y1 - era * 400
  let mp := if m > 2 then m - 3 else m + 9
  let doy := (153 * mp + 2) / 5 + d - 1
  let doe := yoe * 365 + yoe / 4 - yoe / 100 + doy
  era * 146097 + doe - 719468

/-- Civil date `(y, m, d)` of a day number. -/
def civilFromDays (z : Int) : Int × Int × Int :=
  let z1 := z + 719468
  let era := z1 / 146097
  let doe := z1 - era * 146097
  let yoe := (doe - doe / 1460 + doe / 36524 - doe / 146096) / 365
  let doy := doe - (365 * yoe + yoe / 4 - yoe / 100)
  let mp := (5 * doy + 2) / 153
  let d := doy - (153 * mp + 2) / 5 + 1
  let m := if mp < 10 then mp + 3 else mp - 9
  (if m ≤ 2 then yoe + era * 400 + 1 else yoe + era * 400, m, d)

/-- Gregorian leap year test. -/
def isLeapYear (y : Int) : Bool :=
  (y % 4 == 0 && y % 100 != 0) || y % 400 == 0

/-- Number of days of month `m` in year `y`. -/
def daysInMonth (y m : Int) : Int :=
  if m = 2 then (if isLeapYear y then 29 else 28)
  else if m = 4 ∨ m = 6 ∨ m = 9 ∨ m = 11 then 30
  else 31

/-- SQL `d + INTERVAL '7 day'` and the like: `n` days later. -/
def addDays (d : Int) (n : Int) : Int := d + n

/-- SQL `d + INTERVAL '1 month'`: same day of the next month, the day clamped
to the length of that month (PostgreSQL interval arithmetic). -/
def addMonth (d : Int) : Int :=
  match civilFromDays d with
  | (y, m, day) =>
    let y1 := if m = 12 then y + 1 else y
    let m1 := if m = 12 then 1 else m + 1
    daysFromCivil y1 m1 (min day (daysInMonth y1 m1))

/-! ## Data model (`internal/models/models.go`) -/

/-- The persisted entity: `models.Event`. -/
structure Event where
  UserID : Int
  Date : Int
  Event : String
  deriving DecidableEq, Repr

/-- Go `error` values: a driver error, or `fmt.Errorf(msg + ": %w", cause)`. -/
inductive Error where
  | driver (msg : String)
  | wrapf (msg : String) (cause : Error)
  deriving DecidableEq, Repr

/-- Go `errors.Unwrap` iterated: is `c` reachable from `e` by unwrapping. -/
def Error.wraps : Error → Error → Bool
  | .driver m, c => decide (Error.driver m = c)
  | .wrapf m e, c => decide (Error.wrapf m e = c) || Error.wraps e c

/-- Go slice: `none` is the nil slice. -/
abbrev Slice (α : Type) := Option (List α)

/-- Go `append(s, x)`. -/
def Slice.append {α : Type} : Slice α → α → Slice α
  | none, x => some [x]
  | some l, x => some (l ++ [x])

/-- The elements of a slice, in order; the nil slice has none. -/
def Slice.elems {α : Type} : Slice α → List α
  | none => []
  | some l => l

/-! ## The SQL statements (`const ( ... )` block of `postgres.go`) -/

/-- Rows of the table `calendar`. -/
abbrev Table := List Event

/-- Statement `INSERT INTO calendar (user_id, date,event) VALUES ($1,$2,$3)`. -/
def createQuery (p1 : Int) (p2 : Int) (p3 : String) (t : Table) : Table :=
  t ++ [{ UserID := p1, Date := p2, Event := p3 }]

/-- Statement `UPDATE calendar SET date = $1, event = $2 WHERE user_id = $3`. -/
def updateQuery (p1 : Int) (p2 : String) (p3 : Int) (t : Table) : Table :=
  t.map fun r => if r.UserID = p3 then { r with Date := p1, Event := p2 } else r

/-- Statement `DELETE FROM calendar WHERE user_id = $1 AND date = $2`. -/
def deleteQuery (p1 : Int) (p2 : Int) (t : Table) : Table :=
  t.filter fun r => !(decide (r.UserID = p1) && decide (r.Date = p2))

/-- Statement
`SELECT user_id,date,event FROM calendar WHERE user_id = $1 AND date = $2`. -/
def getForDayQuery (p1 : Int) (p2 : Int) (t : Table) : List Event :=
  t.filter fun r => decide (r.UserID = p1) && decide (r.Date = p2)

/-- The clause `ORDER BY date`. -/
def orderByDate (l : List Event) : List Event :=
  l.insertionSort fun a b => a.Date ≤ b.Date

/-- Statement `SELECT user_id,date,event FROM calendar WHERE user_id = $1
AND date >= $2::date AND date < $2::date + INTERVAL '7 day' ORDER BY date`. -/
def getForWeekQuery (p1 : Int) (p2 : Int) (t : Table) : List Event :=
  orderByDate (t.filter fun r =>
    decide (r.UserID = p1) && decide (p2 ≤ r.Date) && decide (r.Date < addDays p2 7))

/-- Statement `SELECT user_id,date, event FROM calendar WHERE user_id = $1
AND date >= $2::date AND date <= $2::date + INTERVAL '1 month' ORDER BY date`. -/
def getForMouthQuery (p1 : Int) (p2 : Int) (t : Table) : List Event :=
  orderByDate (t.filter fun r =>
    decide (r.UserID = p1) && decide (p2 ≤ r.Date) && decide (r.Date ≤ addMonth p2))

/-! ## The backend: pool, transactions, result rows -/

/-- Names of the statement constants, as they appear in the call log. -/
inductive Stmt where
  | createQuery | updateQuery | deleteQuery
  | getForDayQuery | getForWeekQuery | getForMouthQuery
  deriving DecidableEq, Repr

/-- Calls made on the pool and on a transaction handle. -/
inductive TxCall where
  | BeginTx
  | Exec (q : Stmt)
  | Query (q : Stmt)
  | Commit
  | Rollback
  deriving DecidableEq, Repr

/-- Which backend calls fail during one operation. `scan = some (i, e)`: the
`Scan` of result row `i` (from 0) returns `e`. `rows = some (n, e)`: iteration
stops after `n` rows and `Err()` returns `e`. -/
structure Faults where
  begin : Option Error := none
  stmt : Option Error := none
  scan : Option (Nat × Error) := none
  rows : Option (Nat × Error) := none
  commit : Option Error := none
  deriving DecidableEq, Repr

/-- The backend is reachable and every call succeeds. -/
def noFaults : Faults := {}

/-- Pool and database: committed rows, number of transactions begun and not
yet committed or rolled back, and the log of calls. -/
structure DB where
  table : Table
  openTx : Nat := 0
  log : List TxCall := []
  deriving DecidableEq, Repr

/-- Transaction handle `pgx.Tx`: the rows as the transaction sees them. -/
structure Tx where
  work : Table
  deriving DecidableEq, Repr

/-- Result set `pgx.Rows`: the rows `Next` will deliver, and what `Err()`
reports after the iteration. -/
structure Rows where
  delivered : List Event
  err : Option Error
  deriving DecidableEq, Repr

/-- Call `r.db.BeginTx(ctx, pgx.TxOptions{})`. -/
def DB.BeginTx (db : DB) (f : Faults) : DB × Tx × Option Error :=
  match f.begin with
  | some e => ({ db with log := db.log ++ [.BeginTx] }, ⟨db.table⟩, some e)
  | none =>
    ({ db with openTx := db.openTx + 1, log := db.log ++ [.BeginTx] }, ⟨db.table⟩, none)

/-- Call `tx.Exec(ctx, q, args...)`: a failing statement changes nothing. -/
def Tx.Exec (tx : Tx) (db : DB) (f : Faults) (q : Stmt) (run : Table → Table) :
    DB × Tx × Option Error :=
  match f.stmt with
  | some e => ({ db with log := db.log ++ [.Exec q] }, tx, some e)
  | none => ({ db with log := db.log ++ [.Exec q] }, ⟨run tx.work⟩, none)

/-- Call `tx.Query(ctx, q, args...)`. -/
def Tx.Query (tx : Tx) (db : DB) (f : Faults) (q : Stmt) (run : Table → List Event) :
    DB × Rows × Option Error :=
  match f.stmt with
  | some e => ({ db with log := db.log ++ [.Query q] }, ⟨[], some e⟩, some e)
  | none =>
    match f.rows with
    | some (n, e) =>
      ({ db with log := db.log ++ [.Query q] }, ⟨(run tx.work).take n, some e⟩, none)
    | none => ({ db with log := db.log ++ [.Query q] }, ⟨run tx.work, none⟩, none)

/-- Call `tx.Commit(ctx)`: on success the rows of the transaction become the
table; either way the transaction is over. -/
def Tx.Commit (tx : Tx) (db : DB) (f : Faults) : DB × Option Error :=
  match f.commit with
  | some e => ({ db with openTx := db.openTx - 1, log := db.log ++ [.Commit] }, some e)
  | none =>
    ({ table := tx.work, openTx := db.openTx - 1, log := db.log ++ [.Commit] }, none)

/-- Call `tx.Rollback(ctx)`: the rows of the transaction are dropped. -/
def Tx.Rollback (_tx : Tx) (db : DB) : DB :=
  { db with openTx := db.openTx - 1, log := db.log ++ [.Rollback] }

/-- The deferred closure `func() { if err != nil { tx.Rollback(ctx) } }`, run
at a `return` where the function-scope variable `err` holds `err`. -/
def deferred (err : Option Error) (tx : Tx) (db : DB) : DB :=
  match err with
  | some _ => tx.Rollback db
  | none => db

/-- Call `queryEvents.Scan(...)` on result row number `i`. -/
def Faults.scanErr (f : Faults) (i : Nat) : Option Error :=
  match f.scan with
  | some (j, e) => if i = j then some e else none
  | none => none

/-- The loop `for queryEvents.Next() { err = queryEvents.Scan(...); if err != nil
{ return ... }; events = append(events, ev) }` from row number `i` on. Returns the
slice and the value left in the function-scope `err` (`some` means the loop body
returned). -/
def scanLoop (f : Faults) : List Event → Nat → Slice Event → Slice Event × Option Error
  | [], _, events => (events, none)
  | ev :: rest, i, events =>
    match f.scanErr i with
    | some e => (events, some e)
    | none => scanLoop f rest (i + 1) (events.append ev)

/-! ## The repository operations (`postgres.go`) -/

/-- What a write operation returns, and the backend afterwards. -/
structure ExecResult where
  err : Option Error
  db : DB
  deriving DecidableEq, Repr

/-- What a query operation returns, and the backend afterwards. -/
structure QueryResult where
  events : Slice Event
  err : Option Error
  db : DB
  deriving DecidableEq, Repr

/-- Method `Repository.CreateEvent`. -/
def CreateEvent (f : Faults) (db : DB) (event : Event) : ExecResult :=
  match db.BeginTx f with
  | (db, _, some e) => ⟨some (.wrapf "failed to begin transaction" e), db⟩
  | (db, tx, none) =>
    match tx.Exec db f .createQuery (createQuery event.UserID event.Date event.Event) with
    | (db, tx, some e) =>
      ⟨some (.wrapf "failed to create event" e), deferred (some e) tx db⟩
    | (db, tx, none) =>
      -- `return tx.Commit(ctx)`: the result is not stored in `err`, which is nil
      match tx.Commit db f with
      | (db, ret) => ⟨ret, deferred none tx db⟩

/-- Method `Repository.UpdateEvent`. -/
def UpdateEvent (f : Faults) (db : DB) (event : Event) : ExecResult :=
  match db.BeginTx f with
  | (db, _, some e) => ⟨some (.wrapf "failed to begin transaction" e), db⟩
  | (db, tx, none) =>
    match tx.Exec db f .updateQuery (updateQuery event.Date event.Event event.UserID) with
    | (db, tx, some e) =>
      ⟨some (.wrapf "failed to update event" e), deferred (some e) tx db⟩
    | (db, tx, none) =>
      match tx.Commit db f with
      | (db, ret) => ⟨ret, deferred none tx db⟩

/-- Method `Repository.DeleteEvent`. -/
def DeleteEvent (f : Faults) (db : DB) (event : Event) : ExecResult :=
  match db.BeginTx f with
  | (db, _, some e) => ⟨some (.wrapf "failed to begin transaction" e), db⟩
  | (db, tx, none) =>
    match tx.Exec db f .deleteQuery (deleteQuery event.UserID event.Date) with
    | (db, tx, some e) =>
      ⟨some (.wrapf "failed to delete event" e), deferred (some e) tx db⟩
    | (db, tx, none) =>
      match tx.Commit db f with
      | (db, ret) => ⟨ret, deferred none tx db⟩

/-- Method `Repository.GetEventsForDay`. -/
def GetEventsForDay (f : Faults) (db : DB) (event : Event) : QueryResult :=
  match db.BeginTx f with
  | (db, _, some e) => ⟨none, some (.wrapf "failed to begin transaction" e), db⟩
  | (db, tx, none) =>
    match tx.Query db f .getForDayQuery (getForDayQuery event.UserID event.Date) with
    | (db, _, some e) =>
      ⟨none, some (.wrapf "failed to get events for day" e), deferred (some e) tx db⟩
    | (db, queryEvents, none) =>
      match scanLoop f queryEvents.delivered 0 none with
      | (_, some e) =>
        ⟨none, some (.wrapf "failed to get events for day" e), deferred (some e) tx db⟩
      | (events, none) =>
        -- `if err := queryEvents.Err(); err != nil`: a new `err`, local to the
        -- `if`; the function-scope `err` read by the deferred closure is nil
        match queryEvents.err with
        | some e =>
          ⟨none, some (.wrapf "failed to get events for day" e), deferred none tx db⟩
        | none => ⟨events, none, deferred none tx db⟩

/-- Method `Repository.GetEventsForWeek`. -/
def GetEventsForWeek (f : Faults) (db : DB) (event : Event) : QueryResult :=
  match db.BeginTx f with
  | (db, _, some e) => ⟨none, some (.wrapf "failed to begin transaction" e), db⟩
  | (db, tx, none) =>
    match tx.Query db f .getForWeekQuery (getForWeekQuery event.UserID event.Date) with
    | (db, _, some e) =>
      ⟨none, some (.wrapf "failed to get events for week" e), deferred (some e) tx db⟩
    | (db, queryEvents, none) =>
      match scanLoop f queryEvents.delivered 0 none with
      | (_, some e) =>
        ⟨none, some (.wrapf "failed to get events for week" e), deferred (some e) tx db⟩
      | (events, none) =>
        match queryEvents.err with
        | some e =>
          ⟨none, some (.wrapf "failed to get events for week" e), deferred none tx db⟩
        | none => ⟨events, none, deferred none tx db⟩

/-- Method `Repository.GetEventsForMonth`. -/
def GetEventsForMonth (f : Faults) (db : DB) (event : Event) : QueryResult :=
  match db.BeginTx f with
  | (db, _, some e) => ⟨none, some (.wrapf "failed to begin transaction" e), db⟩
  | (db, tx, none) =>
    match tx.Query db f .getForMouthQuery (getForMouthQuery event.UserID event.Date) with
    | (db, _, some e) =>
      ⟨none, some (.wrapf "failed to get events for month" e), deferred (some e) tx db⟩
    | (db, queryEvents, none) =>
      match scanLoop f queryEvents.delivered 0 none with
      | (_, some e) =>
        ⟨none, some (.wrapf "failed to get events for month" e), deferred (some e) tx db⟩
      | (events, none) =>
        match queryEvents.err with
        | some e =>
          ⟨none, some (.wrapf "failed to get events for month" e), deferred none tx db⟩
        | none => ⟨events, none, deferred none tx db⟩

/-! ## Common shape of the operations

The three write methods differ only in the statement they execute and in the
message of the wrapped error, and so do the three query methods. The two
functions below are that common shape; each method is shown equal to its
instance, so that the transaction discipline is analysed once. -/

/-- Common shape of `CreateEvent`, `UpdateEvent` and `DeleteEvent`. -/
def execOp (q : Stmt) (run : Table → Table) (msg : String) (f : Faults) (db : DB) :
    ExecResult :=
  match db.BeginTx f with
  | (db, _, some e) => ⟨some (.wrapf "failed to begin transaction" e), db⟩
  | (db, tx, none) =>
    match tx.Exec db f q run with
    | (db, tx, some e) => ⟨some (.wrapf msg e), deferred (some e) tx db⟩
    | (db, tx, none) =>
      match tx.Commit db f with
      | (db, ret) => ⟨ret, deferred none tx db⟩

/-- Common shape of `GetEventsForDay`, `GetEventsForWeek`, `GetEventsForMonth`. -/
def queryOp (q : Stmt) (run : Table → List Event) (msg : String) (f : Faults) (db : DB) :
    QueryResult :=
  match db.BeginTx f with
  | (db, _, some e) => ⟨none, some (.wrapf "failed to begin transaction" e), db⟩
  | (db, tx, none) =>
    match tx.Query db f q run with
    | (db, _, some e) => ⟨none, some (.wrapf msg e), deferred (some e) tx db⟩
    | (db, queryEvents, none) =>
      match scanLoop f queryEvents.delivered 0 none with
      | (_, some e) => ⟨none, some (.wrapf msg e), deferred (some e) tx db⟩
      | (events, none) =>
        match queryEvents.err with
        | some e => ⟨none, some (.wrapf msg e), deferred none tx db⟩
        | none => ⟨events, none, deferred none tx db⟩

/-! ## Sample data -/

/-- Day 2024-03-01. -/
def mar01 : Int := daysFromCivil 2024 3 1

/-- Day 2024-03-05. -/
def mar05 : Int := daysFromCivil 2024 3 5

/-- Day 2024-03-08, seven days after `mar01`. -/
def mar08 : Int := daysFromCivil 2024 3 8

/-- Day 2024-04-01, one month after `mar01`. -/
def apr01 : Int := daysFromCivil 2024 4 1

/-- Event `{user_id:1, date:"2024-03-01", event:"A"}`. -/
def evA : Event := ⟨1, mar01, "A"⟩

/-- Event `{user_id:1, date:"2024-03-05", event:"B"}`. -/
def evB : Event := ⟨1, mar05, "B"⟩

/-- An empty store with no transaction open. -/
def emptyDB : DB := { table := [] }

/-- A store holding rows of two users on several dates, inserted out of date
order, with one row duplicated. -/
def sampleDB : DB :=
  { table := [evB, ⟨1, mar08, "C"⟩, evA, ⟨2, mar01, "other"⟩, ⟨1, apr01, "D"⟩, evB] }

/-! ## The operations, listed

Each write method with the statement it executes and the message it wraps a
failing statement in, and likewise each query method. -/

/-- The three write methods of `Repository`. -/
def writeOps : List (Stmt × String × (Faults → DB → Event → ExecResult)) :=
  [(.createQuery, "failed to create event", CreateEvent),
   (.updateQuery, "failed to update event", UpdateEvent),
   (.deleteQuery, "failed to delete event", DeleteEvent)]

/-- The three query methods of `Repository`. -/
def queryOps : List (Stmt × String × (Faults → DB → Event → QueryResult)) :=
  [(.getForDayQuery, "failed to get events for day", GetEventsForDay),
   (.getForWeekQuery, "failed to get events for week", GetEventsForWeek),
   (.getForMouthQuery, "failed to get events for month", GetEventsForMonth)]

instance : IsTotal Event (fun a b => a.Date ≤ b.Date) := ⟨fun a b => le_total a.Date b.Date⟩

instance : IsTrans Event (fun a b => a.Date ≤ b.Date) :=
  ⟨fun _ _ _ h1 h2 => le_trans h1 h2⟩

/-! ## Startup (`internal/repository/storage.go`)

The calls to pgx, to `filepath.Abs` and to golang-migrate are external; a
`StartupEnv` fixes what each of them returns. -/

/-- Method `Error()` of an error value: its message. -/
def Error.message : Error → String
  | .driver m => m
  | .wrapf m c => m ++ ": " ++ Error.message c

/-- The sentinel `migrate.ErrNoChange`. Errors are compared by content, so the
sentinel stands for the one error value with this message. -/
def ErrNoChange : Error := .driver "no change"

/-- Go `errors.Is(err, target)`. -/
def errorsIs (err target : Error) : Bool := err.wraps target

/-- What the external calls of startup return: `pgxpool.ParseConfig`,
`pgxpool.NewWithConfig`, `db.Ping`, `filepath.Abs`, `migrate.New` and `m.Up`,
and the pool a successful `NewWithConfig` gives. -/
structure StartupEnv where
  parseConfig : Option Error := none
  newWithConfig : Option Error := none
  ping : Option Error := none
  abs : Option Error := none
  migrateNew : Option Error := none
  up : Option Error := none
  db : DB
  deriving DecidableEq, Repr

/-- The struct `Storage`. -/
structure Storage where
  db : DB
  deriving DecidableEq, Repr

/-- Function `runMigrations`. The two errors built with `%v` carry the message of
their cause as text and do not wrap it. -/
def runMigrations (env : StartupEnv) : Option Error :=
  match env.abs with
  | some err => some (.wrapf "failed to get absolute path" err)
  | none =>
    match env.migrateNew with
    | some err => some (.driver ("start migrations error " ++ err.message))
    | none =>
      match env.up with
      | some err =>
        if errorsIs err ErrNoChange then none
        else some (.driver ("migration up error: " ++ err.message))
      | none => none

/-- Function `NewStorage`. -/
def NewStorage (env : StartupEnv) : Option Storage × Option Error :=
  match env.parseConfig with
  | some err => (none, some (.wrapf "failed to parse config" err))
  | none =>
    match env.newWithConfig with
    | some err => (none, some (.wrapf "failed to connect to PostgreSQL" err))
    | none =>
      match env.ping with
      | some err => (none, some (.wrapf "failed to ping PostgreSQL database" err))
      | none =>
        match runMigrations env with
        | some err => (none, some (.wrapf "failed to run migration" err))
        | none => (some { db := env.db }, none)

/-! ## Service (`internal/service/service.go`)

A repository is any implementation of the interface `CalendarRepository`, with
its own state `σ`; a method takes the state and returns the new one. The
service holds a repository and a logger; the logger is the list of entries
written so far. `Close` and `CloseRepo`, which release the pool, are left
out. -/

/-- Fields of a log entry: `zap.Int64`, `zap.Time`, `zap.String`. -/
inductive Field where
  | Int64 (key : String) (val : Int)
  | Time (key : String) (val : Int)
  | String (key : String) (val : String)
  deriving DecidableEq, Repr

/-- An entry written with `log.Info`. -/
structure LogEntry where
  msg : String
  fields : List Field
  deriving DecidableEq, Repr

/-- The interface `CalendarRepository`. -/
structure CalendarRepository (σ : Type) where
  CreateEvent : σ → Event → Option Error × σ
  UpdateEvent : σ → Event → Option Error × σ
  DeleteEvent : σ → Event → Option Error × σ
  GetEventsForDay : σ → Event → Slice Event × Option Error × σ
  GetEventsForWeek : σ → Event → Slice Event × Option Error × σ
  GetEventsForMonth : σ → Event → Slice Event × Option Error × σ

/-- The struct `CalendarService`: the repository (its methods and its state) and
the logger. -/
structure CalendarService (σ : Type) where
  impl : CalendarRepository σ
  repo : σ
  log : List LogEntry

/-- Method `CalendarService.CreateEvent`. -/
def CalendarService.CreateEvent {σ : Type} (s : CalendarService σ) (event : Event) :
    Option Error × CalendarService σ :=
  let log := s.log ++ [⟨"Creating event", [.Int64 "user_id" event.UserID,
    .Time "date" event.Date, .String "event" event.Event]⟩]
  match s.impl.CreateEvent s.repo event with
  | (err, repo) => (err, { s with repo := repo, log := log })

/-- Method `CalendarService.UpdateEvent`. -/
def CalendarService.UpdateEvent {σ : Type} (s : CalendarService σ) (event : Event) :
    Option Error × CalendarService σ :=
  let log := s.log ++ [⟨"Updating event", [.Int64 "user_id" event.UserID,
    .Time "date" event.Date, .String "event" event.Event]⟩]
  match s.impl.UpdateEvent s.repo event with
  | (err, repo) => (err, { s with repo := repo, log := log })

/-- Method `CalendarService.DeleteEvent`. -/
def CalendarService.DeleteEvent {σ : Type} (s : CalendarService σ) (event : Event) :
    Option Error × CalendarService σ :=
  let log := s.log ++ [⟨"Deleting event", [.Int64 "user_id" event.UserID,
    .String "event" event.Event]⟩]
  match s.impl.DeleteEvent s.repo event with
  | (err, repo) => (err, { s with repo := repo, log := log })

/-- Method `CalendarService.GetEventsForDay`. -/
def CalendarService.GetEventsForDay {σ : Type} (s : CalendarService σ) (event : Event) :
    Slice Event × Option Error × CalendarService σ :=
  let log := s.log ++ [⟨"Getting events for day", [.Int64 "user_id" event.UserID,
    .Time "date" event.Date]⟩]
  match s.impl.GetEventsForDay s.repo event with
  | (events, err, repo) => (events, err, { s with repo := repo, log := log })

/-- Method `CalendarService.GetEventsForWeek`. -/
def CalendarService.GetEventsForWeek {σ : Type} (s : CalendarService σ) (event : Event) :
    Slice Event × Option Error × CalendarService σ :=
  let log := s.log ++ [⟨"Getting events for week", [.Int64 "user_id" event.UserID]⟩]
  match s.impl.GetEventsForWeek s.repo event with
  | (events, err, repo) => (events, err, { s with repo := repo, log := log })

/-- Method `CalendarService.GetEventsForMonth`. -/
def CalendarService.GetEventsForMonth {σ : Type} (s : CalendarService σ) (event : Event) :
    Slice Event × Option Error × CalendarService σ :=
  let log := s.log ++ [⟨"Getting events for month", [.Int64 "user_id" event.UserID]⟩]
  match s.impl.GetEventsForMonth s.repo event with
  | (events, err, repo) => (events, err, { s with repo := repo, log := log })

/-- The six operations by name. -/
inductive Method where
  | CreateEvent | UpdateEvent | DeleteEvent
  | GetEventsForDay | GetEventsForWeek | GetEventsForMonth
  deriving DecidableEq, Repr

/-- A call received by a repository: the method and the event passed. -/
structure Call where
  method : Method
  event : Event
  deriving DecidableEq, Repr

/-- A repository that behaves as `r` does and records every call it receives. -/
def traced {σ : Type} (r : CalendarRepository σ) : CalendarRepository (σ × List Call) where
  CreateEvent := fun s e =>
    match r.CreateEvent s.1 e with
    | (err, s1) => (err, (s1, s.2 ++ [⟨.CreateEvent, e⟩]))
  UpdateEvent := fun s e =>
    match r.UpdateEvent s.1 e with
    | (err, s1) => (err, (s1, s.2 ++ [⟨.UpdateEvent, e⟩]))
  DeleteEvent := fun s e =>
    match r.DeleteEvent s.1 e with
    | (err, s1) => (err, (s1, s.2 ++ [⟨.DeleteEvent, e⟩]))
  GetEventsForDay := fun s e =>
    match r.GetEventsForDay s.1 e with
    | (evs, err, s1) => (evs, err, (s1, s.2 ++ [⟨.GetEventsForDay, e⟩]))
  GetEventsForWeek := fun s e =>
    match r.GetEventsForWeek s.1 e with
    | (evs, err, s1) => (evs, err, (s1, s.2 ++ [⟨.GetEventsForWeek, e⟩]))
  GetEventsForMonth := fun s e =>
    match r.GetEventsForMonth s.1 e with
    | (evs, err, s1) => (evs, err, (s1, s.2 ++ [⟨.GetEventsForMonth, e⟩]))

/-- The PostgreSQL repository as a `CalendarRepository`, on a backend whose
failures during every call are `f`. -/
def pgRepository (f : Faults) : CalendarRepository DB where
  CreateEvent := fun db e => ((CreateEvent f db e).err, (CreateEvent f db e).db)
  UpdateEvent := fun db e => ((UpdateEvent f db e).err, (UpdateEvent f db e).db)
  DeleteEvent := fun db e => ((DeleteEvent f db e).err, (DeleteEvent f db e).db)
  GetEventsForDay := fun db e =>
    ((GetEventsForDay f db e).events, (GetEventsForDay f db e).err, (GetEventsForDay f db e).db)
  GetEventsForWeek := fun db e =>
    ((GetEventsForWeek f db e).events, (GetEventsForWeek f db e).err,
      (GetEventsForWeek f db e).db)
  GetEventsForMonth := fun db e =>
    ((GetEventsForMonth f db e).events, (GetEventsForMonth f db e).err,
      (GetEventsForMonth f db e).db)

/-- The test double `fakeRepo` of `service_test.go`: which methods were called,
the last event received, and what to return. -/
structure fakeRepo where
  createCalled : Bool := false
  updateCalled : Bool := false
  deleteCalled : Bool := false
  dayCalled : Bool := false
  weekCalled : Bool := false
  monthCalled : Bool := false
  lastEvent : Option Event := none
  eventsForDay : Slice Event := none
  eventsForWeek : Slice Event := none
  eventsForMonth : Slice Event := none
  errForDay : Option Error := none
  errForWeek : Option Error := none
  errForMonth : Option Error := none
  errForCreate : Option Error := none
  errForUpdate : Option Error := none
  errForDelete : Option Error := none
  deriving DecidableEq, Repr

/-- The methods of `fakeRepo`. -/
def fakeRepo.impl : CalendarRepository fakeRepo where
  CreateEvent := fun f e => (f.errForCreate, { f with createCalled := true, lastEvent := some e })
  UpdateEvent := fun f e => (f.errForUpdate, { f with updateCalled := true, lastEvent := some e })
  DeleteEvent := fun f e => (f.errForDelete, { f with deleteCalled := true, lastEvent := some e })
  GetEventsForDay := fun f e =>
    (f.eventsForDay, f.errForDay, { f with dayCalled := true, lastEvent := some e })
  GetEventsForWeek := fun f e =>
    (f.eventsForWeek, f.errForWeek, { f with weekCalled := true, lastEvent := some e })
  GetEventsForMonth := fun f e =>
    (f.eventsForMonth, f.errForMonth, { f with monthCalled := true, lastEvent := some e })

/-! ## Handlers (`internal/router/handlers/handlers.go`)

A request carries what `json.Decode` makes of its body; that function is
modelled further down as `Decode`, so that the request of a body `raw` has
`body := Decode raw`. `strconv.ParseInt` and `time.Parse` are modelled for the
arguments the handlers give them. The log calls of the handlers write
to the request logger only and are left out. -/

/-- The struct `models.EventRequest`. -/
structure EventRequest where
  UserID : Int
  Date : String
  Event : String
  deriving DecidableEq, Repr

/-- Value of a run of decimal digits. -/
def digitsValue (cs : List Char) : Nat :=
  cs.foldl (fun n c => 10 * n + (c.toNat - 48)) 0

/-- Go `strconv.ParseInt(s, 10, 64)`; `none` when it returns an error: an
optional sign, then one or more decimal digits, the value within 64 bits. -/
def ParseInt (s : String) : Option Int :=
  let signed : Bool × List Char :=
    match s.data with
    | '+' :: r => (false, r)
    | '-' :: r => (true, r)
    | l => (false, l)
  if signed.2 = [] ∨ signed.2.all Char.isDigit = false then none
  else if signed.1 then
    (if digitsValue signed.2 > 2 ^ 63 then none else some (-(digitsValue signed.2 : Int)))
  else
    (if digitsValue signed.2 ≥ 2 ^ 63 then none else some (digitsValue signed.2 : Int))

/-- Go `time.Parse("2006-01-02", s)`; `none` when it returns an error: four
digits, a dash, two digits, a dash, two digits and nothing else, the month in
1..12 and the day within the month. The result is the day at midnight UTC. -/
def ParseDate (s : String) : Option Int :=
  match s.data with
  | [y1, y2, y3, y4, '-', m1, m2, '-', d1, d2] =>
    if [y1, y2, y3, y4, m1, m2, d1, d2].all Char.isDigit then
      let y : Int := digitsValue [y1, y2, y3, y4]
      let m : Int := digitsValue [m1, m2]
      let d : Int := digitsValue [d1, d2]
      if 1 ≤ m ∧ m ≤ 12 ∧ 1 ≤ d ∧ d ≤ daysInMonth y m then some (daysFromCivil y m d)
      else none
    else none
  | _ => none

/-- An HTTP request as the handlers read it: what `json.Decode` makes of the
body (`none` when it returns an error), and the query parameters `user_id` and
`date` (`c.Query` gives the empty string for an absent parameter). -/
structure Request where
  body : Option EventRequest := none
  user_id : String := ""
  date : String := ""
  deriving DecidableEq, Repr

/-- The JSON object `gin.H` a handler answers with. -/
inductive Body where
  | error (msg : String)
  | result (msg : String)
  | events (evs : Slice Event)
  deriving DecidableEq, Repr

/-- The response written by `c.JSON(code, body)`. -/
structure Response where
  code : Nat
  body : Body
  deriving DecidableEq, Repr

/-- Handler `CalendarHandler.CreateEvent`. -/
def CalendarHandler.CreateEvent {σ : Type} (svc : CalendarService σ) (c : Request) :
    Response × CalendarService σ :=
  match c.body with
  | none => (⟨400, .error "Invalid request body"⟩, svc)
  | some req =>
    if req.UserID ≤ 0 ∨ req.Event = "" ∨ req.Date = "" then
      (⟨400, .error "Missing required parameters"⟩, svc)
    else
      match ParseDate req.Date with
      | none => (⟨400, .error "Invalid date format. Use YYYY-MM-DD"⟩, svc)
      | some dateTime =>
        match svc.CreateEvent { UserID := req.UserID, Date := dateTime, Event := req.Event } with
        | (some _, svc) => (⟨503, .error "Failed to create event"⟩, svc)
        | (none, svc) => (⟨200, .result "Event created successfully"⟩, svc)

/-- Handler `CalendarHandler.UpdateEvent`. -/
def CalendarHandler.UpdateEvent {σ : Type} (svc : CalendarService σ) (c : Request) :
    Response × CalendarService σ :=
  match c.body with
  | none => (⟨400, .error "Invalid request body"⟩, svc)
  | some req =>
    if req.UserID ≤ 0 ∨ req.Event = "" ∨ req.Date = "" then
      (⟨400, .error "Missing required parameters"⟩, svc)
    else
      match ParseDate req.Date with
      | none => (⟨400, .error "Invalid date format. Use YYYY-MM-DD"⟩, svc)
      | some dateTime =>
        match svc.UpdateEvent { UserID := req.UserID, Date := dateTime, Event := req.Event } with
        | (some _, svc) => (⟨503, .error "Failed to update event"⟩, svc)
        | (none, svc) => (⟨200, .result "Event updated successfully"⟩, svc)

/-- Handler `CalendarHandler.DeleteEvent`. The event passed on has no text. -/
def CalendarHandler.DeleteEvent {σ : Type} (svc : CalendarService σ) (c : Request) :
    Response × CalendarService σ :=
  match c.body with
  | none => (⟨400, .error "Invalid request body"⟩, svc)
  | some req =>
    if req.UserID ≤ 0 ∨ req.Date = "" then
      (⟨400, .error "Missing required parameters"⟩, svc)
    else
      match ParseDate req.Date with
      | none => (⟨400, .error "Invalid date format. Use YYYY-MM-DD"⟩, svc)
      | some dateTime =>
        match svc.DeleteEvent { UserID := req.UserID, Date := dateTime, Event := "" } with
        | (some _, svc) => (⟨503, .error "Failed to delete event"⟩, svc)
        | (none, svc) => (⟨200, .result "Event deleted successfully"⟩, svc)

/-- The test `err != nil || userID <= 0` on the result of `strconv.ParseInt`:
the user id when it passes. -/
def queryUserID (c : Request) : Option Int :=
  match ParseInt c.user_id with
  | none => none
  | some userID => if userID ≤ 0 then none else some userID

/-- Handler `CalendarHandler.GetEventsForDay`. -/
def CalendarHandler.GetEventsForDay {σ : Type} (svc : CalendarService σ) (c : Request) :
    Response × CalendarService σ :=
  match queryUserID c with
  | none => (⟨400, .error "Invalid or missing user_id parameter"⟩, svc)
  | some userID =>
    if c.date = "" then (⟨400, .error "Missing date parameter"⟩, svc)
    else
      match ParseDate c.date with
      | none => (⟨400, .error "Invalid date format. Use YYYY-MM-DD"⟩, svc)
      | some dateTime =>
        match svc.GetEventsForDay { UserID := userID, Date := dateTime, Event := "" } with
        | (_, some _, svc) => (⟨503, .error "Failed to get events for day"⟩, svc)
        | (events, none, svc) => (⟨200, .events events⟩, svc)

/-- Handler `CalendarHandler.GetEventsForWeek`. -/
def CalendarHandler.GetEventsForWeek {σ : Type} (svc : CalendarService σ) (c : Request) :
    Response × CalendarService σ :=
  match queryUserID c with
  | none => (⟨400, .error "Invalid or missing user_id parameter"⟩, svc)
  | some userID =>
    if c.date = "" then (⟨400, .error "Missing date parameter"⟩, svc)
    else
      match ParseDate c.date with
      | none => (⟨400, .error "Invalid date format. Use YYYY-MM-DD"⟩, svc)
      | some dateTime =>
        match svc.GetEventsForWeek { UserID := userID, Date := dateTime, Event := "" } with
        | (_, some _, svc) => (⟨503, .error "Failed to get events for week"⟩, svc)
        | (events, none, svc) => (⟨200, .events events⟩, svc)

/-- Handler `CalendarHandler.GetEventsForMonth`. -/
def CalendarHandler.GetEventsForMonth {σ : Type} (svc : CalendarService σ) (c : Request) :
    Response × CalendarService σ :=
  match queryUserID c with
  | none => (⟨400, .error "Invalid or missing user_id parameter"⟩, svc)
  | some userID =>
    if c.date = "" then (⟨400, .error "Missing date parameter"⟩, svc)
    else
      match ParseDate c.date with
      | none => (⟨400, .error "Invalid date format. Use YYYY-MM-DD"⟩, svc)
      | some dateTime =>
        match svc.GetEventsForMonth { UserID := userID, Date := dateTime, Event := "" } with
        | (_, some _, svc) => (⟨503, .error "Failed to get events for month"⟩, svc)
        | (events, none, svc) => (⟨200, .events events⟩, svc)

/-- The routes of `Router.setupRouter`: `/create_event`, `/update_event`,
`/delete_event`, `/events_for_day`, `/events_for_week`, `/events_for_month`,
each with its handler. -/
def Router.handle {σ : Type} :
    Method → CalendarService σ → Request → Response × CalendarService σ
  | .CreateEvent => CalendarHandler.CreateEvent
  | .UpdateEvent => CalendarHandler.UpdateEvent
  | .DeleteEvent => CalendarHandler.DeleteEvent
  | .GetEventsForDay => CalendarHandler.GetEventsForDay
  | .GetEventsForWeek => CalendarHandler.GetEventsForWeek
  | .GetEventsForMonth => CalendarHandler.GetEventsForMonth

/-- The error a service method returns. -/
def CalendarService.errOf {σ : Type} (svc : CalendarService σ) (m : Method) (event : Event) :
    Option Error :=
  match m with
  | .CreateEvent => (svc.CreateEvent event).1
  | .UpdateEvent => (svc.UpdateEvent event).1
  | .DeleteEvent => (svc.DeleteEvent event).1
  | .GetEventsForDay => (svc.GetEventsForDay event).2.1
  | .GetEventsForWeek => (svc.GetEventsForWeek event).2.1
  | .GetEventsForMonth => (svc.GetEventsForMonth event).2.1

/-- The event a handler builds from a request that passes its checks, `none`
for a request it answers with 400: the validation part of each handler, read
off its code. -/
def Router.input (m : Method) (c : Request) : Option Event :=
  match m with
  | .CreateEvent | .UpdateEvent =>
    match c.body with
    | none => none
    | some req =>
      if req.UserID ≤ 0 ∨ req.Event = "" ∨ req.Date = "" then none
      else
        match ParseDate req.Date with
        | none => none
        | some dateTime => some { UserID := req.UserID, Date := dateTime, Event := req.Event }
  | .DeleteEvent =>
    match c.body with
    | none => none
    | some req =>
      if req.UserID ≤ 0 ∨ req.Date = "" then none
      else
        match ParseDate req.Date with
        | none => none
        | some dateTime => some { UserID := req.UserID, Date := dateTime, Event := "" }
  | .GetEventsForDay | .GetEventsForWeek | .GetEventsForMonth =>
    match queryUserID c with
    | none => none
    | some userID =>
      if c.date = "" then none
      else
        match ParseDate c.date with
        | none => none
        | some dateTime => some { UserID := userID, Date := dateTime, Event := "" }

/-- The message of the 503 answer of each handler. -/
def failureMessage : Method → String
  | .CreateEvent => "Failed to create event"
  | .UpdateEvent => "Failed to update event"
  | .DeleteEvent => "Failed to delete event"
  | .GetEventsForDay => "Failed to get events for day"
  | .GetEventsForWeek => "Failed to get events for week"
  | .GetEventsForMonth => "Failed to get events for month"

/-! ## Decoding the request body (`encoding/json`)

The handlers decode the body with `json.NewDecoder(c.Request.Body).Decode(req)`.
`Decode` below follows the decoder of `encoding/json` for the request type: it
scans the first JSON value of the body, stops there, and stores the members of
that value in an `EventRequest`. What follows the first value is not read. -/

/-- White space between JSON tokens. -/
def isSpace (c : Char) : Bool := c == ' ' || c == '\t' || c == '\r' || c == '\n'

/-- Drop leading white space. -/
def skipSpace : List Char → List Char
  | [] => []
  | c :: rest => if isSpace c then skipSpace rest else c :: rest

/-- Value of a hexadecimal digit. -/
def hexDigit (c : Char) : Option Nat :=
  if c.isDigit then some (c.toNat - 48)
  else if 'a' ≤ c ∧ c ≤ 'f' then some (c.toNat - 87)
  else if 'A' ≤ c ∧ c ≤ 'F' then some (c.toNat - 55)
  else none

/-- Value of four hexadecimal digits, as after `\u`. -/
def hex4 (a b c d : Char) : Option Nat :=
  match hexDigit a, hexDigit b, hexDigit c, hexDigit d with
  | some x, some y, some z, some w => some (((x * 16 + y) * 16 + z) * 16 + w)
  | _, _, _, _ => none

/-- A string literal after its opening quote: the decoded text and the input
after the closing quote. Control characters and unknown escapes are errors; a
`\u` escape that is half of a surrogate pair without its other half decodes to
U+FFFD. The first argument bounds the number of steps. -/
def parseString : Nat → List Char → List Char → Option (String × List Char)
  | 0, _, _ => none
  | _ + 1, [], _ => none
  | _ + 1, '"' :: rest, acc => some (String.mk acc.reverse, rest)
  | n + 1, '\\' :: rest, acc =>
    match rest with
    | '"' :: r => parseString n r ('"' :: acc)
    | '\\' :: r => parseString n r ('\\' :: acc)
    | '/' :: r => parseString n r ('/' :: acc)
    | 'b' :: r => parseString n r (Char.ofNat 8 :: acc)
    | 'f' :: r => parseString n r (Char.ofNat 12 :: acc)
    | 'n' :: r => parseString n r ('\n' :: acc)
    | 'r' :: r => parseString n r ('\r' :: acc)
    | 't' :: r => parseString n r ('\t' :: acc)
    | 'u' :: a :: b :: c :: d :: r =>
      match hex4 a b c d with
      | none => none
      | some hi =>
        if hi < 0xD800 ∨ 0xE000 ≤ hi then parseString n r (Char.ofNat hi :: acc)
        else
          match r with
          | '\\' :: 'u' :: a2 :: b2 :: c2 :: d2 :: r2 =>
            match hex4 a2 b2 c2 d2 with
            | some lo =>
              if hi < 0xDC00 ∧ 0xDC00 ≤ lo ∧ lo < 0xE000 then
                parseString n r2
                  (Char.ofNat (0x10000 + (hi - 0xD800) * 0x400 + (lo - 0xDC00)) :: acc)
              else parseString n r (Char.ofNat 0xFFFD :: acc)
            | none => parseString n r (Char.ofNat 0xFFFD :: acc)
          | _ => parseString n r (Char.ofNat 0xFFFD :: acc)
    | _ => none
  | n + 1, c :: rest, acc =>
    if c.toNat < 0x20 then none else parseString n rest (c :: acc)

/-- The digits at the head of the input, and the rest. -/
def spanDigits : List Char → List Char × List Char
  | [] => ([], [])
  | c :: rest =>
    if c.isDigit then ((c :: (spanDigits rest).1), (spanDigits rest).2) else ([], c :: rest)

/-- The exponent part of a number, if there is one. -/
def parseExponent (cs : List Char) : Option (List Char × List Char) :=
  match cs with
  | e :: rest =>
    if e = 'e' ∨ e = 'E' then
      match rest with
      | s :: r =>
        if s = '+' ∨ s = '-' then
          (if (spanDigits r).1 = [] then none
           else some (e :: s :: (spanDigits r).1, (spanDigits r).2))
        else
          (if (spanDigits rest).1 = [] then none
           else some (e :: (spanDigits rest).1, (spanDigits rest).2))
      | [] => none
    else some ([], cs)
  | [] => some ([], [])

/-- The fraction and exponent parts of a number, if there are any. -/
def parseFraction (cs : List Char) : Option (List Char × List Char) :=
  match cs with
  | '.' :: rest =>
    if (spanDigits rest).1 = [] then none
    else
      match parseExponent (spanDigits rest).2 with
      | none => none
      | some (ex, r) => some ('.' :: (spanDigits rest).1 ++ ex, r)
  | _ => parseExponent cs

/-- The integer part of a number and what follows it: a single `0`, or a
nonzero digit and further digits. -/
def parseDigits (cs : List Char) : Option (List Char × List Char) :=
  match cs with
  | '0' :: rest => (parseFraction rest).map fun p => ('0' :: p.1, p.2)
  | c :: rest =>
    if c.isDigit then
      (parseFraction (spanDigits rest).2).map fun p =>
        (c :: (spanDigits rest).1 ++ p.1, p.2)
    else none
  | [] => none

/-- A number literal: its text and the input after it. -/
def parseNumber (cs : List Char) : Option (String × List Char) :=
  match cs with
  | '-' :: rest => (parseDigits rest).map fun p => (String.mk ('-' :: p.1), p.2)
  | _ => (parseDigits cs).map fun p => (String.mk p.1, p.2)

/-- A JSON value as far as the request type looks at it: the contents of arrays
and objects below the top are checked and dropped. -/
inductive JValue where
  | null
  | bool (b : Bool)
  | number (lit : String)
  | string (s : String)
  | array
  | object
  deriving DecidableEq, Repr

/-- The elements of an array after the first `[`, `pv` reading one value: the
input after the closing `]`. The first argument bounds the number of elements. -/
def parseElems (pv : List Char → Option (JValue × List Char)) :
    Nat → List Char → Option (List Char)
  | 0, _ => none
  | n + 1, cs =>
    match pv cs with
    | none => none
    | some (_, rest) =>
      match skipSpace rest with
      | ',' :: r => parseElems pv n r
      | ']' :: r => some r
      | _ => none

/-- The members of an object after the first `{`, `pv` reading one value: the
members in order and the input after the closing `}`. The first argument bounds
the number of members. -/
def parseMembers (pv : List Char → Option (JValue × List Char)) :
    Nat → List Char → List (String × JValue) →
      Option (List (String × JValue) × List Char)
  | 0, _, _ => none
  | n + 1, cs, acc =>
    match skipSpace cs with
    | '"' :: r =>
      match parseString (r.length + 1) r [] with
      | none => none
      | some (key, r1) =>
        match skipSpace r1 with
        | ':' :: r2 =>
          match pv r2 with
          | none => none
          | some (v, r3) =>
            match skipSpace r3 with
            | ',' :: r4 => parseMembers pv n r4 (acc ++ [(key, v)])
            | '}' :: r4 => some (acc ++ [(key, v)], r4)
            | _ => none
        | _ => none
    | _ => none

/-- One JSON value at the head of the input, after optional white space, and
the input after it. The first argument is the nesting still allowed: the
decoder refuses arrays and objects nested more than 10000 deep. -/
def parseValue : Nat → List Char → Option (JValue × List Char)
  | 0, _ => none
  | depth + 1, cs =>
    match skipSpace cs with
    | 'n' :: 'u' :: 'l' :: 'l' :: r => some (.null, r)
    | 't' :: 'r' :: 'u' :: 'e' :: r => some (.bool true, r)
    | 'f' :: 'a' :: 'l' :: 's' :: 'e' :: r => some (.bool false, r)
    | '"' :: r => (parseString (r.length + 1) r []).map fun p => (.string p.1, p.2)
    | '[' :: r =>
      if depth = 0 then none
      else
        match skipSpace r with
        | ']' :: r1 => some (.array, r1)
        | r1 => (parseElems (parseValue depth) (r1.length + 1) r1).map fun rest =>
            (.array, rest)
    | '{' :: r =>
      if depth = 0 then none
      else
        match skipSpace r with
        | '}' :: r1 => some (.object, r1)
        | r1 => (parseMembers (parseValue depth) (r1.length + 1) r1 []).map fun p =>
            (.object, p.2)
    | c :: r => (parseNumber (c :: r)).map fun p => (.number p.1, p.2)
    | [] => none

/-- Go `json.Valid`: the whole text is one JSON value, white space around it
allowed. -/
def validJSON (body : String) : Bool :=
  match parseValue 10001 body.data with
  | some (_, rest) => (skipSpace rest).isEmpty
  | none => false

/-- The members of the object the body starts with. -/
def topMembers (body : String) : Option (List (String × JValue)) :=
  match skipSpace body.data with
  | '{' :: r =>
    match skipSpace r with
    | '}' :: _ => some []
    | r1 => (parseMembers (parseValue 10000) (r1.length + 1) r1 []).map fun p => p.1
  | _ => none

/-- Case folding of member names: ASCII letters to upper case, and the two
other characters that fold to an ASCII letter, U+017F to `S` and U+212A to `K`. -/
def foldRune (c : Char) : Char :=
  if c = Char.ofNat 0x17F then 'S'
  else if c = Char.ofNat 0x212A then 'K'
  else c.toUpper

/-- Does the member name `key` select the field with the JSON name `name`: the
same text, or the same after case folding. -/
def keyMatches (key name : String) : Bool :=
  key == name || key.data.map foldRune == name.data.map foldRune

/-- Store one member in the request; `none` for a value that does not fit the
field. A `null` leaves the field, a name that selects no field is skipped. -/
def setField (req : EventRequest) (key : String) (v : JValue) : Option EventRequest :=
  if keyMatches key "user_id" then
    match v with
    | .null => some req
    | .number lit => (ParseInt lit).map fun n => { req with UserID := n }
    | _ => none
  else if keyMatches key "date" then
    match v with
    | .null => some req
    | .string s => some { req with Date := s }
    | _ => none
  else if keyMatches key "event" then
    match v with
    | .null => some req
    | .string s => some { req with Event := s }
    | _ => none
  else some req

/-- Store the members in order. -/
def unmarshal : List (String × JValue) → EventRequest → Option EventRequest
  | [], req => some req
  | (key, v) :: rest, req =>
    match setField req key v with
    | none => none
    | some req1 => unmarshal rest req1

/-- Go `json.NewDecoder(body).Decode(req)` on a zero `EventRequest`; `none` when
it returns an error. The first value of the body is scanned; an object is
stored member by member, `null` stores nothing, any other value is an error.
The text after the first value is not looked at. -/
def Decode (body : String) : Option EventRequest :=
  match parseValue 10001 body.data with
  | none => none
  | some (.null, _) => some { UserID := 0, Date := "", Event := "" }
  | some (.object, _) =>
    match topMembers body with
    | none => none
    | some members => unmarshal members { UserID := 0, Date := "", Event := "" }
  | some _ => none

/-- A body that is a JSON object followed by text that is no JSON. -/
def trailingBody : String :=
  "\x7b\"user_id\":1,\"date\":\"2024-03-01\",\"event\":\"A\"\x7d trailing text"

/-! ## Lemmas on the model -/

theorem Slice.elems_append {α : Type} (s : Slice α) (x : α) :
    (s.append x).elems = s.elems ++ [x] := by
  cases s <;> simp [Slice.append, Slice.elems]

theorem scanLoop_elems (f : Faults) (l : List Event) (i : Nat) (s : Slice Event)
    (h : (scanLoop f l i s).2 = none) : (scanLoop f l i s).1.elems = s.elems ++ l := by
  induction l generalizing i s with
  | nil => simp [scanLoop]
  | cons ev rest ih =>
    unfold scanLoop at h ⊢
    cases hs : f.scanErr i with
    | some e => simp [hs] at h
    | none =>
      simp only [hs] at h ⊢
      rw [ih _ _ h, Slice.elems_append]
      simp

theorem CreateEvent_eq (f : Faults) (db : DB) (e : Event) :
    CreateEvent f db e =
      execOp .createQuery (createQuery e.UserID e.Date e.Event) "failed to create event" f db :=
  rfl

theorem UpdateEvent_eq (f : Faults) (db : DB) (e : Event) :
    UpdateEvent f db e =
      execOp .updateQuery (updateQuery e.Date e.Event e.UserID) "failed to update event" f db :=
  rfl

theorem DeleteEvent_eq (f : Faults) (db : DB) (e : Event) :
    DeleteEvent f db e =
      execOp .deleteQuery (deleteQuery e.UserID e.Date) "failed to delete event" f db :=
  rfl

theorem GetEventsForDay_eq (f : Faults) (db : DB) (e : Event) :
    GetEventsForDay f db e =
      queryOp .getForDayQuery (getForDayQuery e.UserID e.Date)
        "failed to get events for day" f db :=
  rfl

theorem GetEventsForWeek_eq (f : Faults) (db : DB) (e : Event) :
    GetEventsForWeek f db e =
      queryOp .getForWeekQuery (getForWeekQuery e.UserID e.Date)
        "failed to get events for week" f db :=
  rfl

theorem GetEventsForMonth_eq (f : Faults) (db : DB) (e : Event) :
    GetEventsForMonth f db e =
      queryOp .getForMouthQuery (getForMouthQuery e.UserID e.Date)
        "failed to get events for month" f db :=
  rfl

/-- A query operation that returns no error returns the whole result of its
statement, evaluated on the committed rows. -/
theorem queryOp_ok (q : Stmt) (run : Table → List Event) (msg : String) (f : Faults)
    (db : DB) (h : (queryOp q run msg f db).err = none) :
    (queryOp q run msg f db).events.elems = run db.table := by
  unfold queryOp DB.BeginTx Tx.Query at h ⊢
  cases hb : f.begin with
  | some e => simp [hb] at h
  | none =>
    cases hs : f.stmt with
    | some e => simp [hb, hs] at h
    | none =>
      cases hr : f.rows with
      | some p =>
        simp only [hb, hs, hr] at h
        split at h <;> simp at h
      | none =>
        simp only [hb, hs, hr] at h ⊢
        cases hl : scanLoop f (run db.table) 0 none with
        | mk evs err =>
          cases err with
          | some e => simp [hl] at h
          | none =>
            have hk := scanLoop_elems f (run db.table) 0 none (by rw [hl])
            rw [hl] at hk
            simpa [Slice.elems] using hk

/-- A query operation never changes the committed rows. -/
theorem queryOp_table (q : Stmt) (run : Table → List Event) (msg : String) (f : Faults)
    (db : DB) : (queryOp q run msg f db).db.table = db.table := by
  unfold queryOp DB.BeginTx Tx.Query deferred Tx.Rollback
  cases f.begin <;> cases f.stmt <;> cases f.rows <;> simp <;>
    (split <;> try split) <;> simp

/-- When no `Scan` fails the loop runs to the end. -/
theorem scanLoop_noScan (f : Faults) (hf : f.scan = none) (l : List Event) (i : Nat)
    (s : Slice Event) : (scanLoop f l i s).2 = none := by
  induction l generalizing i s with
  | nil => simp [scanLoop]
  | cons ev rest ih =>
    unfold scanLoop
    simp only [Faults.scanErr, hf]
    exact ih _ _

/-- With a reachable backend a query operation returns no error. -/
theorem queryOp_noFaults (q : Stmt) (run : Table → List Event) (msg : String) (db : DB) :
    (queryOp q run msg noFaults db).err = none := by
  unfold queryOp DB.BeginTx Tx.Query
  have hb : noFaults.begin = none := rfl
  have hs : noFaults.stmt = none := rfl
  have hr : noFaults.rows = none := rfl
  simp only [hb, hs, hr]
  cases hl : scanLoop noFaults (run db.table) 0 none with
  | mk evs err =>
    have hk := scanLoop_noScan noFaults rfl (run db.table) 0 none
    rw [hl] at hk
    simp only at hk
    subst hk
    rfl

/-- A write operation returns no error exactly when none of its three backend
calls fails. -/
theorem execOp_ok_iff (q : Stmt) (run : Table → Table) (msg : String) (f : Faults)
    (db : DB) :
    (execOp q run msg f db).err = none ↔
      f.begin = none ∧ f.stmt = none ∧ f.commit = none := by
  unfold execOp DB.BeginTx Tx.Exec Tx.Commit
  cases f.begin <;> cases f.stmt <;> cases f.commit <;> simp

/-- A write operation that returns no error leaves the table as its statement
makes it. -/
theorem execOp_ok (q : Stmt) (run : Table → Table) (msg : String) (f : Faults)
    (db : DB) (h : (execOp q run msg f db).err = none) :
    (execOp q run msg f db).db.table = run db.table := by
  obtain ⟨hb, hs, hc⟩ := (execOp_ok_iff q run msg f db).1 h
  simp [execOp, DB.BeginTx, Tx.Exec, Tx.Commit, deferred, hb, hs, hc]

/-- A write operation that returns an error leaves the table as it was. -/
theorem execOp_err (q : Stmt) (run : Table → Table) (msg : String) (f : Faults)
    (db : DB) (h : (execOp q run msg f db).err ≠ none) :
    (execOp q run msg f db).db.table = db.table := by
  revert h
  unfold execOp DB.BeginTx Tx.Exec Tx.Commit deferred Tx.Rollback
  cases f.begin <;> cases f.stmt <;> cases f.commit <;> simp

theorem mem_orderByDate (l : List Event) (r : Event) : r ∈ orderByDate l ↔ r ∈ l :=
  (List.perm_insertionSort _ l).mem_iff

/-- Membership in the result of a successful `GetEventsForDay`. -/
theorem GetEventsForDay_mem (f : Faults) (db : DB) (q r : Event)
    (h : (GetEventsForDay f db q).err = none) :
    r ∈ (GetEventsForDay f db q).events.elems ↔
      r ∈ db.table ∧ r.UserID = q.UserID ∧ r.Date = q.Date := by
  rw [GetEventsForDay_eq] at h ⊢
  rw [queryOp_ok _ _ _ _ _ h]
  simp [getForDayQuery]

/-- A write operation that returns no error has begun one transaction, executed
its one statement in it and committed it; no transaction of its own is left
open. -/
theorem execOp_log_ok (q : Stmt) (run : Table → Table) (msg : String) (f : Faults)
    (db : DB) (h : (execOp q run msg f db).err = none) :
    (execOp q run msg f db).db.log = db.log ++ [.BeginTx, .Exec q, .Commit] ∧
    (execOp q run msg f db).db.openTx = db.openTx := by
  obtain ⟨hb, hs, hc⟩ := (execOp_ok_iff q run msg f db).1 h
  simp [execOp, DB.BeginTx, Tx.Exec, Tx.Commit, deferred, hb, hs, hc]

/-- A write operation whose statement fails calls `Rollback`, and the table and
the number of open transactions are as before. -/
theorem execOp_stmt_err (q : Stmt) (run : Table → Table) (msg : String) (f : Faults)
    (db : DB) (c : Error) (hb : f.begin = none) (hs : f.stmt = some c) :
    (execOp q run msg f db).err = some (.wrapf msg c) ∧
    (execOp q run msg f db).db.log = db.log ++ [.BeginTx, .Exec q, .Rollback] ∧
    (execOp q run msg f db).db.openTx = db.openTx ∧
    (execOp q run msg f db).db.table = db.table := by
  simp [execOp, DB.BeginTx, Tx.Exec, deferred, Tx.Rollback, hb, hs]

/-- A write operation whose commit fails returns the error of `Commit` as it is
and does not call `Rollback`; the table is as before. -/
theorem execOp_commit_err (q : Stmt) (run : Table → Table) (msg : String) (f : Faults)
    (db : DB) (c : Error) (hb : f.begin = none) (hs : f.stmt = none)
    (hc : f.commit = some c) :
    (execOp q run msg f db).err = some c ∧
    (execOp q run msg f db).db.log = db.log ++ [.BeginTx, .Exec q, .Commit] ∧
    (execOp q run msg f db).db.table = db.table := by
  simp [execOp, DB.BeginTx, Tx.Exec, Tx.Commit, deferred, hb, hs, hc]

/-- A query operation that returns no error has begun one transaction and run
its one statement in it, and has neither committed nor rolled it back: the
transaction is still open. -/
theorem queryOp_log_ok (q : Stmt) (run : Table → List Event) (msg : String) (f : Faults)
    (db : DB) (h : (queryOp q run msg f db).err = none) :
    (queryOp q run msg f db).db.log = db.log ++ [.BeginTx, .Query q] ∧
    (queryOp q run msg f db).db.openTx = db.openTx + 1 := by
  unfold queryOp DB.BeginTx Tx.Query at h ⊢
  cases hb : f.begin with
  | some e => simp [hb] at h
  | none =>
    cases hs : f.stmt with
    | some e => simp [hb, hs] at h
    | none =>
      cases hr : f.rows with
      | some p =>
        simp only [hb, hs, hr] at h
        split at h <;> simp at h
      | none =>
        simp only [hb, hs, hr] at h ⊢
        cases hl : scanLoop f (run db.table) 0 none with
        | mk evs err =>
          cases err with
          | some e => simp [hl] at h
          | none => simp [deferred]

/-- A query operation whose statement fails calls `Rollback`. -/
theorem queryOp_stmt_err (q : Stmt) (run : Table → List Event) (msg : String)
    (f : Faults) (db : DB) (c : Error) (hb : f.begin = none) (hs : f.stmt = some c) :
    (queryOp q run msg f db).err = some (.wrapf msg c) ∧
    (queryOp q run msg f db).events = none ∧
    (queryOp q run msg f db).db.log = db.log ++ [.BeginTx, .Query q, .Rollback] ∧
    (queryOp q run msg f db).db.openTx = db.openTx := by
  simp [queryOp, DB.BeginTx, Tx.Query, deferred, Tx.Rollback, hb, hs]

/-- A query operation whose row iteration reports an error, no `Scan` having
failed, returns that error wrapped and does not call `Rollback`: its
transaction is left open. -/
theorem queryOp_rows_err (q : Stmt) (run : Table → List Event) (msg : String)
    (f : Faults) (db : DB) (n : Nat) (c : Error) (hb : f.begin = none)
    (hs : f.stmt = none) (hsc : f.scan = none) (hr : f.rows = some (n, c)) :
    (queryOp q run msg f db).err = some (.wrapf msg c) ∧
    (queryOp q run msg f db).events = none ∧
    (queryOp q run msg f db).db.log = db.log ++ [.BeginTx, .Query q] ∧
    (queryOp q run msg f db).db.openTx = db.openTx + 1 := by
  unfold queryOp DB.BeginTx Tx.Query
  simp only [hb, hs, hr]
  cases hl : scanLoop f ((run db.table).take n) 0 none with
  | mk evs err =>
    have hk := scanLoop_noScan f hsc ((run db.table).take n) 0 none
    rw [hl] at hk
    simp only at hk
    subst hk
    simp [deferred]

/-! ### Calendar arithmetic -/

theorem daysInMonth_bounds (y m : Int) : 28 ≤ daysInMonth y m ∧ daysInMonth y m ≤ 31 := by
  unfold daysInMonth
  split_ifs <;> omega

set_option maxHeartbeats 4000000 in
/-- The day of the year computed by `civilFromDays` lies in `[0, 365]`. -/
theorem doy_bounds (doe yoe : Int) (h0 : 0 ≤ doe) (h1 : doe < 146097)
    (hy : yoe = (doe - doe / 1460 + doe / 36524 - doe / 146096) / 365) :
    0 ≤ doe - (365 * yoe + yoe / 4 - yoe / 100) ∧
    doe - (365 * yoe + yoe / 4 - yoe / 100) ≤ 365 := by
  obtain ⟨c, hc⟩ : ∃ c, c = doe / 1460 := ⟨_, rfl⟩
  have hc0 : 0 ≤ c := by omega
  have hc1 : c ≤ 100 := by omega
  have hg : doe / 36524 = 0 ∨ doe / 36524 = 1 ∨ doe / 36524 = 2 ∨ doe / 36524 = 3 ∨
      doe / 36524 = 4 := by omega
  have he : doe / 146096 = 0 ∨ doe / 146096 = 1 := by omega
  interval_cases c <;> rcases hg with hg | hg | hg | hg | hg <;>
    rcases he with he | he <;> omega

set_option maxHeartbeats 4000000 in
/-- One month later is between 28 and 31 days later. -/
theorem le_addMonth (D : Int) : D + 28 ≤ addMonth D ∧ addMonth D ≤ D + 31 := by
  unfold addMonth civilFromDays
  simp only
  generalize hera : (D + 719468) / 146097 = era
  generalize hdoe : D + 719468 - era * 146097 = doe
  have h0 : 0 ≤ doe := by omega
  have h1 : doe < 146097 := by omega
  generalize hyoe : (doe - doe / 1460 + doe / 36524 - doe / 146096) / 365 = yoe
  have hyb : 0 ≤ yoe ∧ yoe ≤ 399 := by omega
  have hdb := doy_bounds doe yoe h0 h1 hyoe.symm
  generalize hdoy : doe - (365 * yoe + yoe / 4 - yoe / 100) = doy at hdb ⊢
  have hD : D = era * 146097 + 365 * yoe + yoe / 4 - yoe / 100 + doy - 719468 := by omega
  clear hera hdoe hyoe h0 h1
  generalize hmp : (5 * doy + 2) / 153 = mp
  have hmpb : 0 ≤ mp ∧ mp ≤ 11 := by omega
  obtain ⟨hm0, hm1⟩ := hmpb
  have h400 : (yoe + era * 400) / 400 = era := by omega
  have h401 : (yoe + era * 400 + 1) / 400 = if yoe = 399 then era + 1 else era := by
    split_ifs <;> omega
  interval_cases mp <;> norm_num [daysFromCivil, daysInMonth, min_def, h400, h401] <;>
    split_ifs <;> omega

/-- Month addition on sample days: the day of the month is kept, and clamped
to the length of the next month. -/
theorem addMonth_samples :
    addMonth (daysFromCivil 2024 3 1) = daysFromCivil 2024 4 1 ∧
    addMonth (daysFromCivil 2024 1 31) = daysFromCivil 2024 2 29 ∧
    addMonth (daysFromCivil 2023 1 31) = daysFromCivil 2023 2 28 ∧
    addMonth (daysFromCivil 2023 12 15) = daysFromCivil 2024 1 15 ∧
    civilFromDays (daysFromCivil 2024 3 1) = (2024, 3, 1) ∧
    daysFromCivil 1970 1 1 = 0 := by
  decide

/-! ### The statements -/

theorem getForWeekQuery_perm (u : Int) (D : Int) (t : Table) :
    (getForWeekQuery u D t).Perm
      (t.filter fun r => decide (r.UserID = u ∧ D ≤ r.Date ∧ r.Date < D + 7)) := by
  unfold getForWeekQuery orderByDate addDays
  refine (List.perm_insertionSort _ _).trans ?_
  apply List.Perm.of_eq
  apply List.filter_congr
  intro r _
  simp [Bool.and_assoc]

theorem getForMouthQuery_perm (u : Int) (D : Int) (t : Table) :
    (getForMouthQuery u D t).Perm
      (t.filter fun r => decide (r.UserID = u ∧ D ≤ r.Date ∧ r.Date ≤ addMonth D)) := by
  unfold getForMouthQuery orderByDate
  refine (List.perm_insertionSort _ _).trans ?_
  apply List.Perm.of_eq
  apply List.filter_congr
  intro r _
  simp [Bool.and_assoc]

/-! ## The window queries -/

/-- C1: a successful `GetEventsForWeek(u, D)` returns exactly the stored events
of user `u` whose date `d` satisfies `D <= d < D + 7 days`, each as often as it
is stored; an event of `u` dated exactly `D + 7 days` is not returned, and a
stored one dated exactly `D` is returned. -/
theorem GetEventsForWeek_window (f : Faults) (db : DB) (q : Event)
    (h : (GetEventsForWeek f db q).err = none) :
    ((GetEventsForWeek f db q).events.elems).Perm
      (db.table.filter fun r =>
        decide (r.UserID = q.UserID ∧ q.Date ≤ r.Date ∧ r.Date < q.Date + 7)) ∧
    (∀ r, r ∈ (GetEventsForWeek f db q).events.elems ↔
      r ∈ db.table ∧ r.UserID = q.UserID ∧ q.Date ≤ r.Date ∧ r.Date < q.Date + 7) ∧
    (∀ r, r.UserID = q.UserID → r.Date = q.Date + 7 →
      r ∉ (GetEventsForWeek f db q).events.elems) ∧
    (∀ r ∈ db.table, r.UserID = q.UserID → r.Date = q.Date →
      r ∈ (GetEventsForWeek f db q).events.elems) := by
  rw [GetEventsForWeek_eq] at h ⊢
  rw [queryOp_ok _ _ _ _ _ h]
  have hp := getForWeekQuery_perm q.UserID q.Date db.table
  have hm : ∀ r, r ∈ getForWeekQuery q.UserID q.Date db.table ↔
      r ∈ db.table ∧ r.UserID = q.UserID ∧ q.Date ≤ r.Date ∧ r.Date < q.Date + 7 := by
    intro r
    rw [hp.mem_iff]
    simp
  refine ⟨hp, hm, ?_, ?_⟩
  · intro r _ hd hr
    have := ((hm r).1 hr).2.2.2
    omega
  · intro r hr hu hd
    exact (hm r).2 ⟨hr, hu, by omega, by omega⟩

/-- Witness for C1 on the scenario of the specification: with A on 2024-03-01 and
B on 2024-03-05 stored (among other rows, one of them on 2024-03-08), the week
of 2024-03-01 for user 1 is A and B (B twice, as it is stored twice). -/
theorem GetEventsForWeek_window_witness :
    (GetEventsForWeek noFaults sampleDB ⟨1, mar01, ""⟩).err = none ∧
    (GetEventsForWeek noFaults sampleDB ⟨1, mar01, ""⟩).events = some [evA, evB, evB] ∧
    ∀ r, r ∈ (GetEventsForWeek noFaults sampleDB ⟨1, mar01, ""⟩).events.elems ↔
      r ∈ sampleDB.table ∧ r.UserID = 1 ∧ mar01 ≤ r.Date ∧ r.Date < mar01 + 7 :=
  ⟨by decide, by decide,
    (GetEventsForWeek_window noFaults sampleDB ⟨1, mar01, ""⟩ (by decide)).2.1⟩

/-- C2: a successful `GetEventsForMonth(u, D)` returns exactly the stored events
of user `u` whose date `d` satisfies `D <= d <= D + 1 month`, each as often as
it is stored; a stored event of `u` dated exactly `D + 1 month` is returned. -/
theorem GetEventsForMonth_window (f : Faults) (db : DB) (q : Event)
    (h : (GetEventsForMonth f db q).err = none) :
    ((GetEventsForMonth f db q).events.elems).Perm
      (db.table.filter fun r =>
        decide (r.UserID = q.UserID ∧ q.Date ≤ r.Date ∧ r.Date ≤ addMonth q.Date)) ∧
    (∀ r, r ∈ (GetEventsForMonth f db q).events.elems ↔
      r ∈ db.table ∧ r.UserID = q.UserID ∧ q.Date ≤ r.Date ∧ r.Date ≤ addMonth q.Date) ∧
    (∀ r ∈ db.table, r.UserID = q.UserID → r.Date = addMonth q.Date →
      r ∈ (GetEventsForMonth f db q).events.elems) := by
  rw [GetEventsForMonth_eq] at h ⊢
  rw [queryOp_ok _ _ _ _ _ h]
  have hp := getForMouthQuery_perm q.UserID q.Date db.table
  have hm : ∀ r, r ∈ getForMouthQuery q.UserID q.Date db.table ↔
      r ∈ db.table ∧ r.UserID = q.UserID ∧ q.Date ≤ r.Date ∧ r.Date ≤ addMonth q.Date := by
    intro r
    rw [hp.mem_iff]
    simp
  refine ⟨hp, hm, ?_⟩
  intro r hr hu hd
  have hle := (le_addMonth q.Date).1
  exact (hm r).2 ⟨hr, hu, by omega, by omega⟩

/-- Witness for C2: one month after 2024-03-01 is 2024-04-01, and the row of
user 1 stored on that day is part of the month of 2024-03-01. -/
theorem GetEventsForMonth_window_witness :
    (GetEventsForMonth noFaults sampleDB ⟨1, mar01, ""⟩).err = none ∧
    addMonth mar01 = apr01 ∧
    (GetEventsForMonth noFaults sampleDB ⟨1, mar01, ""⟩).events =
      some [evA, evB, evB, ⟨1, mar08, "C"⟩, ⟨1, apr01, "D"⟩] ∧
    ∀ r, r ∈ (GetEventsForMonth noFaults sampleDB ⟨1, mar01, ""⟩).events.elems ↔
      r ∈ sampleDB.table ∧ r.UserID = 1 ∧ mar01 ≤ r.Date ∧ r.Date ≤ addMonth mar01 :=
  ⟨by decide, by decide, by decide,
    (GetEventsForMonth_window noFaults sampleDB ⟨1, mar01, ""⟩ (by decide)).2.1⟩

/-- C3: a successful `GetEventsForDay(u, D)` returns all and only the stored
events of user `u` dated exactly `D`: the matching rows, each as often as it is
stored (so every one of several events sharing the date), and no event of `u`
on another date. -/
theorem GetEventsForDay_exact (f : Faults) (db : DB) (q : Event)
    (h : (GetEventsForDay f db q).err = none) :
    ((GetEventsForDay f db q).events.elems).Perm
      (db.table.filter (fun r => decide (r.UserID = q.UserID ∧ r.Date = q.Date))) ∧
    (∀ r, r ∈ (GetEventsForDay f db q).events.elems ↔
      r ∈ db.table ∧ r.UserID = q.UserID ∧ r.Date = q.Date) ∧
    (∀ r, r.UserID = q.UserID → r.Date = q.Date →
      (GetEventsForDay f db q).events.elems.count r = db.table.count r) ∧
    (∀ r, r.UserID = q.UserID → r.Date ≠ q.Date →
      r ∉ (GetEventsForDay f db q).events.elems) := by
  rw [GetEventsForDay_eq] at h ⊢
  rw [queryOp_ok _ _ _ _ _ h]
  have he : getForDayQuery q.UserID q.Date db.table =
      db.table.filter (fun r => decide (r.UserID = q.UserID ∧ r.Date = q.Date)) := by
    unfold getForDayQuery
    apply List.filter_congr
    intro r _
    simp
  rw [he]
  refine ⟨List.Perm.refl _, ?_, ?_, ?_⟩
  · intro r
    simp
  · intro r hu hd
    apply List.count_filter
    simp [hu, hd]
  · intro r _ hd hr
    simp at hr
    exact hd hr.2.2

/-- Witness for C3 on the scenario of the specification: the day 2024-03-05 of
user 1 is B alone (both stored copies of it), not A. -/
theorem GetEventsForDay_exact_witness :
    (GetEventsForDay noFaults sampleDB ⟨1, mar05, ""⟩).err = none ∧
    (GetEventsForDay noFaults sampleDB ⟨1, mar05, ""⟩).events = some [evB, evB] ∧
    ((GetEventsForDay noFaults sampleDB ⟨1, mar05, ""⟩).events.elems).Perm
      (sampleDB.table.filter (fun r => decide (r.UserID = 1 ∧ r.Date = mar05))) :=
  ⟨by decide, by decide,
    (GetEventsForDay_exact noFaults sampleDB ⟨1, mar05, ""⟩ (by decide)).1⟩

/-! ## Create, delete, update -/

/-- C4: if `CreateEvent(e)` succeeds and `GetEventsForDay` is then called with
the same user id and date and succeeds, the returned sequence contains an event
equal to `e` in all three fields. `CreateEvent` adds exactly one row, the row
`e`, whatever the table holds: created a second time, `e` is stored once more
again, so that two more copies of it are stored than before. This holds for
every event, valid or not. -/
theorem CreateEvent_then_GetEventsForDay (f1 f2 : Faults) (db : DB) (e q : Event)
    (hu : q.UserID = e.UserID) (hd : q.Date = e.Date)
    (h1 : (CreateEvent f1 db e).err = none)
    (h2 : (GetEventsForDay f2 (CreateEvent f1 db e).db q).err = none) :
    e ∈ (GetEventsForDay f2 (CreateEvent f1 db e).db q).events.elems ∧
    (CreateEvent f1 db e).db.table = db.table ++ [e] ∧
    (∀ f3, (CreateEvent f3 (CreateEvent f1 db e).db e).err = none →
      (CreateEvent f3 (CreateEvent f1 db e).db e).db.table = db.table ++ [e, e] ∧
      (CreateEvent f3 (CreateEvent f1 db e).db e).db.table.count e =
        db.table.count e + 2) := by
  have ht : ∀ (f : Faults) (d : DB), (CreateEvent f d e).err = none →
      (CreateEvent f d e).db.table = d.table ++ [e] := by
    intro f d hf
    rw [CreateEvent_eq] at hf ⊢
    rw [execOp_ok _ _ _ _ _ hf]
    rfl
  refine ⟨?_, ht f1 db h1, ?_⟩
  · rw [GetEventsForDay_mem f2 _ q e h2, ht f1 db h1]
    exact ⟨by simp, hu.symm, hd.symm⟩
  · intro f3 h3
    have h4 := ht f3 _ h3
    rw [ht f1 db h1] at h4
    rw [h4]
    constructor
    · simp
    · simp [List.count_append]

/-- Witness for C4: event A (user 1, 2024-03-01, text "A") created in a store
that already holds rows, then read back. -/
theorem CreateEvent_then_GetEventsForDay_witness :
    (CreateEvent noFaults sampleDB evA).err = none ∧
    (GetEventsForDay noFaults (CreateEvent noFaults sampleDB evA).db ⟨1, mar01, ""⟩).err
      = none ∧
    evA ∈ (GetEventsForDay noFaults (CreateEvent noFaults sampleDB evA).db
      ⟨1, mar01, ""⟩).events.elems :=
  ⟨by decide, by decide,
    (CreateEvent_then_GetEventsForDay noFaults noFaults sampleDB evA ⟨1, mar01, ""⟩
      rfl rfl (by decide) (by decide)).1⟩

/-- C5: after a successful `DeleteEvent(e)` the table is the previous table with
exactly the rows having `user_id = e.user_id` and `date = e.date` removed: every
other row stays, in place and as often as before, and the text of `e` plays no
part (two events that agree on user id and date delete alike). -/
theorem DeleteEvent_removes (f : Faults) (db : DB) (e : Event)
    (h : (DeleteEvent f db e).err = none) :
    (DeleteEvent f db e).db.table =
      db.table.filter (fun r => decide ¬(r.UserID = e.UserID ∧ r.Date = e.Date)) ∧
    (∀ r, r ∈ (DeleteEvent f db e).db.table ↔
      r ∈ db.table ∧ ¬(r.UserID = e.UserID ∧ r.Date = e.Date)) ∧
    (∀ r, ¬(r.UserID = e.UserID ∧ r.Date = e.Date) →
      (DeleteEvent f db e).db.table.count r = db.table.count r) ∧
    (∀ e2 : Event, e2.UserID = e.UserID → e2.Date = e.Date →
      DeleteEvent f db e2 = DeleteEvent f db e) := by
  have ht : (DeleteEvent f db e).db.table =
      db.table.filter (fun r => decide ¬(r.UserID = e.UserID ∧ r.Date = e.Date)) := by
    rw [DeleteEvent_eq] at h ⊢
    rw [execOp_ok _ _ _ _ _ h]
    unfold deleteQuery
    apply List.filter_congr
    intro r _
    by_cases h1 : r.UserID = e.UserID <;> by_cases h2 : r.Date = e.Date <;> simp [h1, h2]
  refine ⟨ht, ?_, ?_, ?_⟩
  · intro r
    rw [ht, List.mem_filter, decide_eq_true_eq]
  · intro r hr
    rw [ht]
    apply List.count_filter
    exact decide_eq_true hr
  · intro e2 hu hd
    simp only [DeleteEvent_eq, hu, hd]

/-- Witness for C5: deleting (user 1, 2024-03-05) from the sample store removes
both copies of B and nothing else. -/
theorem DeleteEvent_removes_witness :
    (DeleteEvent noFaults sampleDB ⟨1, mar05, "ignored"⟩).err = none ∧
    (DeleteEvent noFaults sampleDB ⟨1, mar05, "ignored"⟩).db.table =
      [⟨1, mar08, "C"⟩, evA, ⟨2, mar01, "other"⟩, ⟨1, apr01, "D"⟩] ∧
    (DeleteEvent noFaults sampleDB ⟨1, mar05, "ignored"⟩).db.table =
      sampleDB.table.filter (fun r => decide ¬(r.UserID = 1 ∧ r.Date = mar05)) :=
  ⟨by decide, by decide,
    (DeleteEvent_removes noFaults sampleDB ⟨1, mar05, "ignored"⟩ (by decide)).1⟩

/-- C6: `DeleteEvent` is idempotent. With a reachable backend the first and the
second call both return no error, the second call leaves the table as the first
one left it, and a call for a (user id, date) that no row matches leaves the
table unchanged. -/
theorem DeleteEvent_idempotent (db : DB) (e : Event) :
    (DeleteEvent noFaults db e).err = none ∧
    (DeleteEvent noFaults (DeleteEvent noFaults db e).db e).err = none ∧
    (DeleteEvent noFaults (DeleteEvent noFaults db e).db e).db.table =
      (DeleteEvent noFaults db e).db.table ∧
    ((∀ r ∈ db.table, ¬(r.UserID = e.UserID ∧ r.Date = e.Date)) →
      (DeleteEvent noFaults db e).db.table = db.table) := by
  have hok : ∀ d : DB, (DeleteEvent noFaults d e).err = none := by
    intro d
    rw [DeleteEvent_eq, execOp_ok_iff]
    exact ⟨rfl, rfl, rfl⟩
  have ht : ∀ d : DB, (DeleteEvent noFaults d e).db.table =
      deleteQuery e.UserID e.Date d.table := by
    intro d
    have := hok d
    rw [DeleteEvent_eq] at this ⊢
    exact execOp_ok _ _ _ _ _ this
  refine ⟨hok db, hok _, ?_, ?_⟩
  · rw [ht, ht]
    unfold deleteQuery
    rw [List.filter_filter]
    apply List.filter_congr
    intro r _
    simp
  · intro hno
    rw [ht]
    unfold deleteQuery
    rw [List.filter_eq_self]
    intro r hr
    have := hno r hr
    by_cases h1 : r.UserID = e.UserID <;> by_cases h2 : r.Date = e.Date <;> simp_all

/-- Witness for C6 on the scenario of the specification: deleting
`{user_id:9, date:"2099-01-01"}`, which matches no row, succeeds and leaves the
store unchanged. -/
theorem DeleteEvent_idempotent_witness :
    (DeleteEvent noFaults sampleDB ⟨9, daysFromCivil 2099 1 1, ""⟩).err = none ∧
    (DeleteEvent noFaults sampleDB ⟨9, daysFromCivil 2099 1 1, ""⟩).db.table =
      sampleDB.table :=
  ⟨(DeleteEvent_idempotent sampleDB ⟨9, daysFromCivil 2099 1 1, ""⟩).1,
    (DeleteEvent_idempotent sampleDB ⟨9, daysFromCivil 2099 1 1, ""⟩).2.2.2 (by decide)⟩

/-- After a successful `UpdateEvent(e)` the table is the previous one with the
statement `updateQuery` applied. -/
theorem UpdateEvent_table (f : Faults) (db : DB) (e : Event)
    (h : (UpdateEvent f db e).err = none) :
    (UpdateEvent f db e).db.table =
      db.table.map (fun r => if r.UserID = e.UserID then ⟨r.UserID, e.Date, e.Event⟩ else r) := by
  rw [UpdateEvent_eq] at h ⊢
  rw [execOp_ok _ _ _ _ _ h]
  rfl

/-- C7: after a successful `UpdateEvent(e)` every row whose `user_id` equals
`e.user_id` has its date set to `e.date` and its text set to `e.event`, whatever
its previous date was; the number of rows and the `user_id` of each row are
unchanged. -/
theorem UpdateEvent_rewrites_user (f : Faults) (db : DB) (e : Event)
    (h : (UpdateEvent f db e).err = none) :
    (∀ (i : Nat) (r : Event), db.table[i]? = some r → r.UserID = e.UserID →
      (UpdateEvent f db e).db.table[i]? = some ⟨r.UserID, e.Date, e.Event⟩) ∧
    (∀ r ∈ (UpdateEvent f db e).db.table, r.UserID = e.UserID →
      r.Date = e.Date ∧ r.Event = e.Event) ∧
    (UpdateEvent f db e).db.table.length = db.table.length ∧
    (UpdateEvent f db e).db.table.map (fun r => r.UserID) =
      db.table.map (fun r => r.UserID) := by
  rw [UpdateEvent_table f db e h]
  refine ⟨?_, ?_, ?_, ?_⟩
  · intro i r hi hu
    simp [List.getElem?_map, hi, hu]
  · intro r hr hu
    rw [List.mem_map] at hr
    obtain ⟨r0, _, h0⟩ := hr
    by_cases hc : r0.UserID = e.UserID
    · rw [if_pos hc] at h0
      subst h0
      exact ⟨rfl, rfl⟩
    · rw [if_neg hc] at h0
      subst h0
      exact absurd hu hc
  · simp
  · rw [List.map_map]
    apply List.map_congr_left
    intro r _
    by_cases hc : r.UserID = e.UserID <;> simp [hc]

/-- Witness for C7: one update for user 1 rewrites all five rows of user 1 in
the sample store, on four different dates, and leaves the row of user 2. -/
theorem UpdateEvent_rewrites_user_witness :
    (UpdateEvent noFaults sampleDB ⟨1, mar01, "X"⟩).err = none ∧
    (UpdateEvent noFaults sampleDB ⟨1, mar01, "X"⟩).db.table =
      [⟨1, mar01, "X"⟩, ⟨1, mar01, "X"⟩, ⟨1, mar01, "X"⟩, ⟨2, mar01, "other"⟩,
        ⟨1, mar01, "X"⟩, ⟨1, mar01, "X"⟩] ∧
    (UpdateEvent noFaults sampleDB ⟨1, mar01, "X"⟩).db.table.length =
      sampleDB.table.length :=
  ⟨by decide, by decide,
    (UpdateEvent_rewrites_user noFaults sampleDB ⟨1, mar01, "X"⟩ (by decide)).2.2.1⟩

/-- C8, as stated, fails: with A on 2024-03-01 and B on 2024-03-05 stored for
user 1, a successful `UpdateEvent` for (user 1, 2024-03-01) also rewrites B,
a row of the same user on a different date. -/
theorem UpdateEvent_rewrites_other_dates :
    (UpdateEvent noFaults { table := [evA, evB] } ⟨1, mar01, "X"⟩).err = none ∧
    evB.UserID = 1 ∧ evB.Date ≠ mar01 ∧
    (UpdateEvent noFaults { table := [evA, evB] } ⟨1, mar01, "X"⟩).db.table =
      [⟨1, mar01, "X"⟩, ⟨1, mar01, "X"⟩] ∧
    evB ∉ (UpdateEvent noFaults { table := [evA, evB] } ⟨1, mar01, "X"⟩).db.table := by
  decide

/-- C8, amended: `UpdateEvent` addresses rows by `user_id` alone. A successful
`UpdateEvent(e)` leaves every row of another user unchanged, so it changes only
rows whose `user_id` matches; a row of the same user with a different date is
not left unchanged: it is rewritten to the date and text of `e`. -/
theorem UpdateEvent_keyed_on_user (f : Faults) (db : DB) (e : Event)
    (h : (UpdateEvent f db e).err = none) :
    (∀ (i : Nat) (r : Event), db.table[i]? = some r → r.UserID ≠ e.UserID →
      (UpdateEvent f db e).db.table[i]? = some r) ∧
    (∀ (i : Nat) (r : Event), db.table[i]? = some r →
      (UpdateEvent f db e).db.table[i]? ≠ some r → r.UserID = e.UserID) ∧
    (∀ (i : Nat) (r : Event), db.table[i]? = some r → r.UserID = e.UserID →
      r.Date ≠ e.Date →
      (UpdateEvent f db e).db.table[i]? = some ⟨r.UserID, e.Date, e.Event⟩ ∧
      (UpdateEvent f db e).db.table[i]? ≠ some r) := by
  rw [UpdateEvent_table f db e h]
  have hframe : ∀ (i : Nat) (r : Event), db.table[i]? = some r → r.UserID ≠ e.UserID →
      (db.table.map (fun r => if r.UserID = e.UserID then
        (⟨r.UserID, e.Date, e.Event⟩ : Event) else r))[i]? = some r := by
    intro i r hi hu
    simp [List.getElem?_map, hi, hu]
  refine ⟨hframe, ?_, ?_⟩
  · intro i r hi hne
    by_contra hu
    exact hne (hframe i r hi hu)
  · intro i r hi hu hd
    have hnew : (db.table.map (fun r => if r.UserID = e.UserID then
        (⟨r.UserID, e.Date, e.Event⟩ : Event) else r))[i]? =
        some ⟨r.UserID, e.Date, e.Event⟩ := by
      simp [List.getElem?_map, hi, hu]
    refine ⟨hnew, ?_⟩
    rw [hnew]
    intro hEq
    have := congrArg Event.Date (Option.some.inj hEq)
    exact hd this.symm

/-- Witness for the amended C8: in the sample store the row of user 2 survives an
update for user 1. -/
theorem UpdateEvent_keyed_on_user_witness :
    (UpdateEvent noFaults sampleDB ⟨1, mar01, "X"⟩).err = none ∧
    (UpdateEvent noFaults sampleDB ⟨1, mar01, "X"⟩).db.table[3]? =
      some ⟨2, mar01, "other"⟩ :=
  ⟨by decide,
    (UpdateEvent_keyed_on_user noFaults sampleDB ⟨1, mar01, "X"⟩ (by decide)).1 3
      ⟨2, mar01, "other"⟩ (by decide) (by decide)⟩

/-! ## Transaction discipline -/

/-- The three write operations follow the transaction protocol on success: one
`BeginTx`, one `Exec`, one `Commit`, and no transaction left open. -/
theorem write_ops_commit (f : Faults) (db : DB) (e : Event) :
    ((CreateEvent f db e).err = none →
      (CreateEvent f db e).db.log = db.log ++ [.BeginTx, .Exec .createQuery, .Commit] ∧
      (CreateEvent f db e).db.openTx = db.openTx) ∧
    ((UpdateEvent f db e).err = none →
      (UpdateEvent f db e).db.log = db.log ++ [.BeginTx, .Exec .updateQuery, .Commit] ∧
      (UpdateEvent f db e).db.openTx = db.openTx) ∧
    ((DeleteEvent f db e).err = none →
      (DeleteEvent f db e).db.log = db.log ++ [.BeginTx, .Exec .deleteQuery, .Commit] ∧
      (DeleteEvent f db e).db.openTx = db.openTx) :=
  ⟨execOp_log_ok _ _ _ f db, execOp_log_ok _ _ _ f db, execOp_log_ok _ _ _ f db⟩

/-- C9 fails on the code for the three query operations: with a reachable
backend, on every store and for every user id and date, `GetEventsForDay`,
`GetEventsForWeek` and `GetEventsForMonth` return success having called
`BeginTx` and `Query` and nothing else. `Commit` is never called, and the
transaction is still open when the call returns. -/
theorem query_ops_never_commit (db : DB) (q : Event) :
    ((GetEventsForDay noFaults db q).err = none ∧
      (GetEventsForDay noFaults db q).db.log =
        db.log ++ [.BeginTx, .Query .getForDayQuery] ∧
      (GetEventsForDay noFaults db q).db.openTx = db.openTx + 1) ∧
    ((GetEventsForWeek noFaults db q).err = none ∧
      (GetEventsForWeek noFaults db q).db.log =
        db.log ++ [.BeginTx, .Query .getForWeekQuery] ∧
      (GetEventsForWeek noFaults db q).db.openTx = db.openTx + 1) ∧
    ((GetEventsForMonth noFaults db q).err = none ∧
      (GetEventsForMonth noFaults db q).db.log =
        db.log ++ [.BeginTx, .Query .getForMouthQuery] ∧
      (GetEventsForMonth noFaults db q).db.openTx = db.openTx + 1) :=
  ⟨⟨queryOp_noFaults _ _ _ db, queryOp_log_ok _ _ _ _ db (queryOp_noFaults _ _ _ db)⟩,
   ⟨queryOp_noFaults _ _ _ db, queryOp_log_ok _ _ _ _ db (queryOp_noFaults _ _ _ db)⟩,
   ⟨queryOp_noFaults _ _ _ db, queryOp_log_ok _ _ _ _ db (queryOp_noFaults _ _ _ db)⟩⟩

/-- Where the deferred rollback does fire: when the statement of an operation
fails, `Rollback` is called before the operation returns its error. -/
theorem stmt_failure_rolls_back (db : DB) (e : Event) (c : Error) :
    (CreateEvent { stmt := some c } db e).db.log =
      db.log ++ [.BeginTx, .Exec .createQuery, .Rollback] ∧
    (UpdateEvent { stmt := some c } db e).db.log =
      db.log ++ [.BeginTx, .Exec .updateQuery, .Rollback] ∧
    (DeleteEvent { stmt := some c } db e).db.log =
      db.log ++ [.BeginTx, .Exec .deleteQuery, .Rollback] ∧
    (GetEventsForDay { stmt := some c } db e).db.log =
      db.log ++ [.BeginTx, .Query .getForDayQuery, .Rollback] ∧
    (GetEventsForWeek { stmt := some c } db e).db.log =
      db.log ++ [.BeginTx, .Query .getForWeekQuery, .Rollback] ∧
    (GetEventsForMonth { stmt := some c } db e).db.log =
      db.log ++ [.BeginTx, .Query .getForMouthQuery, .Rollback] := by
  simp only [CreateEvent_eq, UpdateEvent_eq, DeleteEvent_eq, GetEventsForDay_eq,
    GetEventsForWeek_eq, GetEventsForMonth_eq]
  have hw := fun (q : Stmt) (run : Table → Table) (msg : String) =>
    (execOp_stmt_err q run msg { stmt := some c } db c rfl rfl).2.1
  have hq := fun (q : Stmt) (run : Table → List Event) (msg : String) =>
    (queryOp_stmt_err q run msg { stmt := some c } db c rfl rfl).2.2.1
  exact ⟨hw _ _ _, hw _ _ _, hw _ _ _, hq _ _ _, hq _ _ _, hq _ _ _⟩

/-- No operation that returns an error changes the committed rows. -/
theorem error_leaves_table (f : Faults) (db : DB) (e : Event) :
    ((CreateEvent f db e).err ≠ none → (CreateEvent f db e).db.table = db.table) ∧
    ((UpdateEvent f db e).err ≠ none → (UpdateEvent f db e).db.table = db.table) ∧
    ((DeleteEvent f db e).err ≠ none → (DeleteEvent f db e).db.table = db.table) ∧
    (GetEventsForDay f db e).db.table = db.table ∧
    (GetEventsForWeek f db e).db.table = db.table ∧
    (GetEventsForMonth f db e).db.table = db.table :=
  ⟨execOp_err _ _ _ f db, execOp_err _ _ _ f db, execOp_err _ _ _ f db,
   queryOp_table _ _ _ f db, queryOp_table _ _ _ f db, queryOp_table _ _ _ f db⟩

/-- C10 fails on the code on two of the four error paths. When `Commit` fails,
each write operation returns the error having called `BeginTx`, `Exec` and
`Commit` only; when row iteration reports an error, each query operation
returns the error having called `BeginTx` and `Query` only, and its transaction
stays open. On neither path is `Rollback` called. -/
theorem error_paths_without_rollback (db : DB) (e : Event) (c : Error) (n : Nat) :
    ((CreateEvent { commit := some c } db e).err = some c ∧
      (CreateEvent { commit := some c } db e).db.log =
        db.log ++ [.BeginTx, .Exec .createQuery, .Commit]) ∧
    ((UpdateEvent { commit := some c } db e).err = some c ∧
      (UpdateEvent { commit := some c } db e).db.log =
        db.log ++ [.BeginTx, .Exec .updateQuery, .Commit]) ∧
    ((DeleteEvent { commit := some c } db e).err = some c ∧
      (DeleteEvent { commit := some c } db e).db.log =
        db.log ++ [.BeginTx, .Exec .deleteQuery, .Commit]) ∧
    ((GetEventsForDay { rows := some (n, c) } db e).err =
        some (.wrapf "failed to get events for day" c) ∧
      (GetEventsForDay { rows := some (n, c) } db e).db.log =
        db.log ++ [.BeginTx, .Query .getForDayQuery] ∧
      (GetEventsForDay { rows := some (n, c) } db e).db.openTx = db.openTx + 1) ∧
    ((GetEventsForWeek { rows := some (n, c) } db e).err =
        some (.wrapf "failed to get events for week" c) ∧
      (GetEventsForWeek { rows := some (n, c) } db e).db.log =
        db.log ++ [.BeginTx, .Query .getForWeekQuery] ∧
      (GetEventsForWeek { rows := some (n, c) } db e).db.openTx = db.openTx + 1) ∧
    ((GetEventsForMonth { rows := some (n, c) } db e).err =
        some (.wrapf "failed to get events for month" c) ∧
      (GetEventsForMonth { rows := some (n, c) } db e).db.log =
        db.log ++ [.BeginTx, .Query .getForMouthQuery] ∧
      (GetEventsForMonth { rows := some (n, c) } db e).db.openTx = db.openTx + 1) := by
  simp only [CreateEvent_eq, UpdateEvent_eq, DeleteEvent_eq, GetEventsForDay_eq,
    GetEventsForWeek_eq, GetEventsForMonth_eq]
  have hw := fun (q : Stmt) (run : Table → Table) (msg : String) =>
    execOp_commit_err q run msg { commit := some c } db c rfl rfl rfl
  have hq := fun (q : Stmt) (run : Table → List Event) (msg : String) =>
    queryOp_rows_err q run msg { rows := some (n, c) } db n c rfl rfl rfl rfl
  exact ⟨⟨(hw _ _ _).1, (hw _ _ _).2.1⟩, ⟨(hw _ _ _).1, (hw _ _ _).2.1⟩,
    ⟨(hw _ _ _).1, (hw _ _ _).2.1⟩,
    ⟨(hq _ _ _).1, (hq _ _ _).2.2.1, (hq _ _ _).2.2.2⟩,
    ⟨(hq _ _ _).1, (hq _ _ _).2.2.1, (hq _ _ _).2.2.2⟩,
    ⟨(hq _ _ _).1, (hq _ _ _).2.2.1, (hq _ _ _).2.2.2⟩⟩

/-! ## Error values of the repository -/

theorem Error.wraps_self (c : Error) : Error.wraps c c = true := by
  cases c <;> simp [Error.wraps]

/-- A query operation that returns an error returns the nil slice. -/
theorem queryOp_err_events (q : Stmt) (run : Table → List Event) (msg : String)
    (f : Faults) (db : DB) (h : (queryOp q run msg f db).err ≠ none) :
    (queryOp q run msg f db).events = none := by
  revert h
  unfold queryOp
  split
  · simp
  · split
    · simp
    · split
      · simp
      · split <;> simp

theorem orderByDate_sorted (l : List Event) :
    List.Sorted (fun a b => a.Date ≤ b.Date) (orderByDate l) :=
  List.sorted_insertionSort _ l

theorem getForDayQuery_sorted (u : Int) (D : Int) (t : Table) :
    List.Sorted (fun a b => a.Date ≤ b.Date) (getForDayQuery u D t) := by
  unfold getForDayQuery
  rw [List.Sorted, List.pairwise_iff_forall_sublist]
  intro a b hab
  have ha := hab.subset (List.mem_cons_self a [b])
  have hb := hab.subset (List.mem_cons_of_mem a (List.mem_singleton_self b))
  simp only [List.mem_filter, Bool.and_eq_true, decide_eq_true_eq] at ha hb
  rw [ha.2.2, hb.2.2]

/-- The rows a query method returns are among the rows of its statement. -/
theorem queryOp_elems_subset (q : Stmt) (run : Table → List Event) (msg : String)
    (f : Faults) (db : DB) (r : Event) (hr : r ∈ (queryOp q run msg f db).events.elems) :
    r ∈ run db.table := by
  by_cases h : (queryOp q run msg f db).err = none
  · rwa [queryOp_ok q run msg f db h] at hr
  · rw [queryOp_err_events q run msg f db h] at hr
    simp [Slice.elems] at hr

/-- A successful query whose statement selects no row returns the nil slice. -/
theorem queryOp_empty (q : Stmt) (run : Table → List Event) (msg : String)
    (f : Faults) (db : DB) (h : (queryOp q run msg f db).err = none)
    (hrun : run db.table = []) : (queryOp q run msg f db).events = none := by
  unfold queryOp DB.BeginTx Tx.Query at h ⊢
  cases hb : f.begin with
  | some e => simp [hb] at h
  | none =>
    cases hs : f.stmt with
    | some e => simp [hb, hs] at h
    | none =>
      cases hr : f.rows with
      | some p =>
        simp only [hb, hs, hr] at h
        split at h <;> simp at h
      | none => simp [hb, hs, hr, hrun, scanLoop]

/-- C15: the sequence returned by a successful `GetEventsForDay`,
`GetEventsForWeek` or `GetEventsForMonth` is ordered by date ascending: dates
never decrease along it, and in particular each date is at most the next one.
When no stored row matches, a call on a reachable backend returns no error and
an empty sequence (the nil slice), and so does every call that returns no
error. -/
theorem query_results_ordered (f : Faults) (db : DB) (q : Event) :
    (∀ s msg op, (s, msg, op) ∈ queryOps → (op f db q).err = none →
      List.Sorted (fun a b => a.Date ≤ b.Date) (op f db q).events.elems ∧
      List.Chain' (fun a b => a.Date ≤ b.Date) (op f db q).events.elems) ∧
    ((∀ r ∈ db.table, ¬(r.UserID = q.UserID ∧ r.Date = q.Date)) →
      ((GetEventsForDay noFaults db q).err = none ∧
        (GetEventsForDay noFaults db q).events.elems = []) ∧
      ((GetEventsForDay f db q).err = none → (GetEventsForDay f db q).events = none)) ∧
    ((∀ r ∈ db.table, ¬(r.UserID = q.UserID ∧ q.Date ≤ r.Date ∧ r.Date < q.Date + 7)) →
      ((GetEventsForWeek noFaults db q).err = none ∧
        (GetEventsForWeek noFaults db q).events.elems = []) ∧
      ((GetEventsForWeek f db q).err = none → (GetEventsForWeek f db q).events = none)) ∧
    ((∀ r ∈ db.table,
        ¬(r.UserID = q.UserID ∧ q.Date ≤ r.Date ∧ r.Date ≤ addMonth q.Date)) →
      ((GetEventsForMonth noFaults db q).err = none ∧
        (GetEventsForMonth noFaults db q).events.elems = []) ∧
      ((GetEventsForMonth f db q).err = none →
        (GetEventsForMonth f db q).events = none)) := by
  have hnil : ∀ (s : Stmt) (run : Table → List Event) (msg : String),
      run db.table = [] →
      ((queryOp s run msg noFaults db).err = none ∧
        (queryOp s run msg noFaults db).events.elems = []) ∧
      ((queryOp s run msg f db).err = none → (queryOp s run msg f db).events = none) := by
    intro s run msg hrun
    have hok := queryOp_noFaults s run msg db
    refine ⟨⟨hok, ?_⟩, fun h => queryOp_empty s run msg f db h hrun⟩
    rw [queryOp_ok s run msg noFaults db hok, hrun]
  refine ⟨?_, ?_, ?_, ?_⟩
  · intro s msg op hop hok
    have hsorted : List.Sorted (fun a b => a.Date ≤ b.Date) (op f db q).events.elems := by
      simp only [queryOps, List.mem_cons, Prod.mk.injEq, List.mem_nil_iff, or_false] at hop
      rcases hop with ⟨rfl, rfl, rfl⟩ | ⟨rfl, rfl, rfl⟩ | ⟨rfl, rfl, rfl⟩
      · rw [GetEventsForDay_eq] at hok ⊢
        rw [queryOp_ok _ _ _ _ _ hok]
        exact getForDayQuery_sorted _ _ _
      · rw [GetEventsForWeek_eq] at hok ⊢
        rw [queryOp_ok _ _ _ _ _ hok]
        exact orderByDate_sorted _
      · rw [GetEventsForMonth_eq] at hok ⊢
        rw [queryOp_ok _ _ _ _ _ hok]
        exact orderByDate_sorted _
    exact ⟨hsorted, hsorted.chain'⟩
  · intro hno
    simp only [GetEventsForDay_eq]
    apply hnil
    unfold getForDayQuery
    rw [List.filter_eq_nil_iff]
    intro r hr
    have := hno r hr
    simpa using this
  · intro hno
    simp only [GetEventsForWeek_eq]
    apply hnil
    have hp := getForWeekQuery_perm q.UserID q.Date db.table
    have hf : db.table.filter (fun r =>
        decide (r.UserID = q.UserID ∧ q.Date ≤ r.Date ∧ r.Date < q.Date + 7)) = [] := by
      rw [List.filter_eq_nil_iff]
      intro r hr
      simpa using hno r hr
    rw [hf] at hp
    exact List.perm_nil.1 hp
  · intro hno
    simp only [GetEventsForMonth_eq]
    apply hnil
    have hp := getForMouthQuery_perm q.UserID q.Date db.table
    have hf : db.table.filter (fun r =>
        decide (r.UserID = q.UserID ∧ q.Date ≤ r.Date ∧ r.Date ≤ addMonth q.Date)) = [] := by
      rw [List.filter_eq_nil_iff]
      intro r hr
      simpa using hno r hr
    rw [hf] at hp
    exact List.perm_nil.1 hp

/-- Witness for C15: the week of 2024-03-01 in the sample store comes back in
date order although the rows were stored out of order, and the day 2099-01-01,
on which nothing is stored, comes back empty and without error. -/
theorem query_results_ordered_witness :
    (GetEventsForWeek noFaults sampleDB ⟨1, mar01, ""⟩).events = some [evA, evB, evB] ∧
    List.Sorted (fun a b => a.Date ≤ b.Date)
      (GetEventsForWeek noFaults sampleDB ⟨1, mar01, ""⟩).events.elems ∧
    ((GetEventsForDay noFaults sampleDB ⟨1, daysFromCivil 2099 1 1, ""⟩).err = none ∧
      (GetEventsForDay noFaults sampleDB ⟨1, daysFromCivil 2099 1 1, ""⟩).events.elems = []) :=
  ⟨by decide,
   ((query_results_ordered noFaults sampleDB ⟨1, mar01, ""⟩).1 .getForWeekQuery
      "failed to get events for week" GetEventsForWeek (by simp [queryOps])
      (by decide)).1,
   ((query_results_ordered noFaults sampleDB ⟨1, daysFromCivil 2099 1 1, ""⟩).2.1
      (by decide)).1⟩

/-- The statement `updateQuery` leaves the rows of every other user as they
were. -/
theorem updateQuery_filter_other (d : Int) (txt : String) (u : Int) (t : Table) :
    (updateQuery d txt u t).filter (fun r => decide (r.UserID ≠ u)) =
      t.filter (fun r => decide (r.UserID ≠ u)) := by
  unfold updateQuery
  induction t with
  | nil => rfl
  | cons r rest ih =>
    rw [List.map_cons]
    by_cases h : r.UserID = u
    · simp only [h, if_true, List.filter_cons, ne_eq, not_true_eq_false, decide_False,
        Bool.false_eq_true, if_false]
      exact ih
    · simp only [h, if_false, List.filter_cons, ne_eq, not_false_eq_true, decide_True,
        if_true]
      rw [ih]

/-- C17: user isolation. Whatever the backend does, each write operation leaves
the rows of every other user as they were (the same rows in the same order), no
query operation returns a row of another user, and each query operation leaves
the whole table as it was. -/
theorem user_isolation (f : Faults) (db : DB) (e : Event) :
    (∀ q msg op, (q, msg, op) ∈ writeOps →
      (op f db e).db.table.filter (fun r => decide (r.UserID ≠ e.UserID)) =
        db.table.filter (fun r => decide (r.UserID ≠ e.UserID)) ∧
      (∀ r, r.UserID ≠ e.UserID →
        (op f db e).db.table.count r = db.table.count r)) ∧
    (∀ q msg op, (q, msg, op) ∈ queryOps →
      (∀ r ∈ (op f db e).events.elems, r.UserID = e.UserID) ∧
      (op f db e).db.table = db.table) := by
  have hcount : ∀ (t1 t2 : Table),
      t1.filter (fun r => decide (r.UserID ≠ e.UserID)) =
        t2.filter (fun r => decide (r.UserID ≠ e.UserID)) →
      ∀ r, r.UserID ≠ e.UserID → t1.count r = t2.count r := by
    intro t1 t2 h r hr
    have h1 : (t1.filter (fun r => decide (r.UserID ≠ e.UserID))).count r = t1.count r :=
      List.count_filter (by simpa using hr)
    have h2 : (t2.filter (fun r => decide (r.UserID ≠ e.UserID))).count r = t2.count r :=
      List.count_filter (by simpa using hr)
    rw [← h1, ← h2, h]
  have hwrite : ∀ (q : Stmt) (run : Table → Table) (msg : String),
      (run db.table).filter (fun r => decide (r.UserID ≠ e.UserID)) =
        db.table.filter (fun r => decide (r.UserID ≠ e.UserID)) →
      (execOp q run msg f db).db.table.filter (fun r => decide (r.UserID ≠ e.UserID)) =
        db.table.filter (fun r => decide (r.UserID ≠ e.UserID)) := by
    intro q run msg hrun
    by_cases h : (execOp q run msg f db).err = none
    · rw [execOp_ok q run msg f db h, hrun]
    · rw [execOp_err q run msg f db h]
  constructor
  · intro q msg op hop
    have hfil : (op f db e).db.table.filter (fun r => decide (r.UserID ≠ e.UserID)) =
        db.table.filter (fun r => decide (r.UserID ≠ e.UserID)) := by
      simp only [writeOps, List.mem_cons, Prod.mk.injEq, List.mem_nil_iff, or_false] at hop
      rcases hop with ⟨rfl, rfl, rfl⟩ | ⟨rfl, rfl, rfl⟩ | ⟨rfl, rfl, rfl⟩
      · rw [CreateEvent_eq]
        apply hwrite
        simp [createQuery]
      · rw [UpdateEvent_eq]
        apply hwrite
        exact updateQuery_filter_other _ _ _ _
      · rw [DeleteEvent_eq]
        apply hwrite
        unfold deleteQuery
        rw [List.filter_filter]
        apply List.filter_congr
        intro r _
        by_cases h1 : r.UserID = e.UserID <;> simp [h1]
    exact ⟨hfil, hcount _ _ hfil⟩
  · intro q msg op hop
    simp only [queryOps, List.mem_cons, Prod.mk.injEq, List.mem_nil_iff, or_false] at hop
    rcases hop with ⟨rfl, rfl, rfl⟩ | ⟨rfl, rfl, rfl⟩ | ⟨rfl, rfl, rfl⟩
    · rw [GetEventsForDay_eq]
      refine ⟨fun r hr => ?_, queryOp_table _ _ _ f db⟩
      have := queryOp_elems_subset _ _ _ f db r hr
      simp only [getForDayQuery, List.mem_filter, Bool.and_eq_true, decide_eq_true_eq] at this
      exact this.2.1
    · rw [GetEventsForWeek_eq]
      refine ⟨fun r hr => ?_, queryOp_table _ _ _ f db⟩
      have := queryOp_elems_subset _ _ _ f db r hr
      rw [(getForWeekQuery_perm _ _ _).mem_iff] at this
      simp only [List.mem_filter, decide_eq_true_eq] at this
      exact this.2.1
    · rw [GetEventsForMonth_eq]
      refine ⟨fun r hr => ?_, queryOp_table _ _ _ f db⟩
      have := queryOp_elems_subset _ _ _ f db r hr
      rw [(getForMouthQuery_perm _ _ _).mem_iff] at this
      simp only [List.mem_filter, decide_eq_true_eq] at this
      exact this.2.1

/-! ## Startup -/

/-- C16: `runMigrations` returns nil when `m.Up()` reports `migrate.ErrNoChange`
(as it does when `m.Up()` succeeds), and returns a non-nil error exactly when
resolving the path, creating the migration or running it fails otherwise. Once
parsing the configuration, connecting and the ping have succeeded, `NewStorage`
returns an error exactly when `runMigrations` does, so startup on a schema that
is already up to date succeeds. -/
theorem runMigrations_noChange (env : StartupEnv) :
    (env.abs = none → env.migrateNew = none →
      (∀ err, env.up = some err → errorsIs err ErrNoChange = true) →
      runMigrations env = none) ∧
    (runMigrations env ≠ none ↔
      env.abs ≠ none ∨ env.migrateNew ≠ none ∨
        ∃ err, env.up = some err ∧ errorsIs err ErrNoChange = false) ∧
    (env.parseConfig = none → env.newWithConfig = none → env.ping = none →
      ((NewStorage env).2 ≠ none ↔ runMigrations env ≠ none) ∧
      (runMigrations env = none → NewStorage env = (some { db := env.db }, none))) ∧
    (env.parseConfig = none → env.newWithConfig = none → env.ping = none →
      env.abs = none → env.migrateNew = none → env.up = some ErrNoChange →
      NewStorage env = (some { db := env.db }, none)) := by
  have hrun : env.abs = none → env.migrateNew = none →
      (∀ err, env.up = some err → errorsIs err ErrNoChange = true) →
      runMigrations env = none := by
    intro ha hn hu
    unfold runMigrations
    rw [ha, hn]
    cases hup : env.up with
    | none => rfl
    | some err => simp [hu err hup]
  have hnew : env.parseConfig = none → env.newWithConfig = none → env.ping = none →
      ((NewStorage env).2 ≠ none ↔ runMigrations env ≠ none) ∧
      (runMigrations env = none → NewStorage env = (some { db := env.db }, none)) := by
    intro hp hc hpi
    unfold NewStorage
    rw [hp, hc, hpi]
    cases hr : runMigrations env <;> simp
  refine ⟨hrun, ?_, hnew, ?_⟩
  · unfold runMigrations
    cases ha : env.abs with
    | some err => simp
    | none =>
      cases hn : env.migrateNew with
      | some err => simp
      | none =>
        cases hup : env.up with
        | none => simp
        | some err => cases hi : errorsIs err ErrNoChange <;> simp [hi]
  · intro hp hc hpi ha hn hup
    apply (hnew hp hc hpi).2
    apply hrun ha hn
    intro err herr
    rw [hup] at herr
    cases herr
    exact Error.wraps_self _

/-- Witness for C16: startup on a schema already at the latest version, and on
one where `m.Up()` reports no change through a wrapping error. -/
theorem runMigrations_noChange_witness :
    NewStorage { up := some ErrNoChange, db := sampleDB } =
      (some { db := sampleDB }, none) ∧
    runMigrations { up := some (.wrapf "up" ErrNoChange), db := sampleDB } = none :=
  ⟨(runMigrations_noChange { up := some ErrNoChange, db := sampleDB }).2.2.2
      rfl rfl rfl rfl rfl rfl,
   (runMigrations_noChange { up := some (.wrapf "up" ErrNoChange), db := sampleDB }).1
      rfl rfl (by decide)⟩

/-! ## Service and handlers -/

/-- C12: `CalendarService` is a pure pass-through. For every repository `r`, in
every state, and every event `e`, valid or not, each of the six service methods
returns exactly what the method of `r` returns for `e` (the error, and for the
queries the sequence, nil included), leaves `r` in the state that one call
leaves it in, and `r` has received exactly one call more: that method, with
`e` unmodified. -/
theorem CalendarService_pass_through {σ : Type} (r : CalendarRepository σ) (s : σ)
    (calls : List Call) (log : List LogEntry) (e : Event) :
    ((CalendarService.CreateEvent ⟨traced r, (s, calls), log⟩ e).1 = (r.CreateEvent s e).1 ∧
      (CalendarService.CreateEvent ⟨traced r, (s, calls), log⟩ e).2.repo =
        ((r.CreateEvent s e).2, calls ++ [⟨.CreateEvent, e⟩])) ∧
    ((CalendarService.UpdateEvent ⟨traced r, (s, calls), log⟩ e).1 = (r.UpdateEvent s e).1 ∧
      (CalendarService.UpdateEvent ⟨traced r, (s, calls), log⟩ e).2.repo =
        ((r.UpdateEvent s e).2, calls ++ [⟨.UpdateEvent, e⟩])) ∧
    ((CalendarService.DeleteEvent ⟨traced r, (s, calls), log⟩ e).1 = (r.DeleteEvent s e).1 ∧
      (CalendarService.DeleteEvent ⟨traced r, (s, calls), log⟩ e).2.repo =
        ((r.DeleteEvent s e).2, calls ++ [⟨.DeleteEvent, e⟩])) ∧
    ((CalendarService.GetEventsForDay ⟨traced r, (s, calls), log⟩ e).1 =
        (r.GetEventsForDay s e).1 ∧
      (CalendarService.GetEventsForDay ⟨traced r, (s, calls), log⟩ e).2.1 =
        (r.GetEventsForDay s e).2.1 ∧
      (CalendarService.GetEventsForDay ⟨traced r, (s, calls), log⟩ e).2.2.repo =
        ((r.GetEventsForDay s e).2.2, calls ++ [⟨.GetEventsForDay, e⟩])) ∧
    ((CalendarService.GetEventsForWeek ⟨traced r, (s, calls), log⟩ e).1 =
        (r.GetEventsForWeek s e).1 ∧
      (CalendarService.GetEventsForWeek ⟨traced r, (s, calls), log⟩ e).2.1 =
        (r.GetEventsForWeek s e).2.1 ∧
      (CalendarService.GetEventsForWeek ⟨traced r, (s, calls), log⟩ e).2.2.repo =
        ((r.GetEventsForWeek s e).2.2, calls ++ [⟨.GetEventsForWeek, e⟩])) ∧
    ((CalendarService.GetEventsForMonth ⟨traced r, (s, calls), log⟩ e).1 =
        (r.GetEventsForMonth s e).1 ∧
      (CalendarService.GetEventsForMonth ⟨traced r, (s, calls), log⟩ e).2.1 =
        (r.GetEventsForMonth s e).2.1 ∧
      (CalendarService.GetEventsForMonth ⟨traced r, (s, calls), log⟩ e).2.2.repo =
        ((r.GetEventsForMonth s e).2.2, calls ++ [⟨.GetEventsForMonth, e⟩])) := by
  refine ⟨⟨rfl, rfl⟩, ⟨rfl, rfl⟩, ⟨rfl, rfl⟩, ⟨rfl, rfl, rfl⟩, ⟨rfl, rfl, rfl⟩,
    ⟨rfl, rfl, rfl⟩⟩

/-- The tests `TestCalendarService_CreateEvent_Success` and
`TestCalendarService_GetEventsForDay_Error` of `service_test.go`, on the
embedding. -/
theorem CalendarService_tests :
    ((CalendarService.CreateEvent ⟨fakeRepo.impl, {}, []⟩ ⟨42, mar01, "Meeting"⟩).1 = none ∧
      (CalendarService.CreateEvent ⟨fakeRepo.impl, {}, []⟩
        ⟨42, mar01, "Meeting"⟩).2.repo.createCalled = true ∧
      (CalendarService.CreateEvent ⟨fakeRepo.impl, {}, []⟩
        ⟨42, mar01, "Meeting"⟩).2.repo.lastEvent = some ⟨42, mar01, "Meeting"⟩) ∧
    ((CalendarService.GetEventsForDay
        ⟨fakeRepo.impl, { errForDay := some (.driver "query failed") }, []⟩
        ⟨1, mar01, ""⟩).1 = none ∧
      (CalendarService.GetEventsForDay
        ⟨fakeRepo.impl, { errForDay := some (.driver "query failed") }, []⟩
        ⟨1, mar01, ""⟩).2.1 = some (.driver "query failed") ∧
      (CalendarService.GetEventsForDay
        ⟨fakeRepo.impl, { errForDay := some (.driver "query failed") }, []⟩
        ⟨1, mar01, ""⟩).2.2.repo.dayCalled = true) := by
  decide

/-- A request that fails the checks of its handler is answered with 400 and the
service is left as it was. -/
theorem Router.handle_invalid {σ : Type} (m : Method) (svc : CalendarService σ)
    (c : Request) (h : Router.input m c = none) :
    (Router.handle m svc c).1.code = 400 ∧ (Router.handle m svc c).2 = svc := by
  cases m <;>
    simp only [Router.input, Router.handle, CalendarHandler.CreateEvent,
      CalendarHandler.UpdateEvent, CalendarHandler.DeleteEvent,
      CalendarHandler.GetEventsForDay, CalendarHandler.GetEventsForWeek,
      CalendarHandler.GetEventsForMonth] at h ⊢ <;>
    (split at h
     · simp [*]
     · split at h
       · simp [*]
       · split at h
         · simp [*]
         · simp at h)

/-- A request that passes the checks of its handler reaches the service with the
event built from it; the answer is 503 with the fixed message of the handler
when the service returns an error, and 200 otherwise. -/
theorem Router.handle_valid {σ : Type} (m : Method) (svc : CalendarService σ)
    (c : Request) (ev : Event) (h : Router.input m c = some ev) :
    (svc.errOf m ev ≠ none →
      (Router.handle m svc c).1 = ⟨503, .error (failureMessage m)⟩) ∧
    (svc.errOf m ev = none → (Router.handle m svc c).1.code = 200) := by
  cases m <;>
    simp only [Router.input, Router.handle, CalendarHandler.CreateEvent,
      CalendarHandler.UpdateEvent, CalendarHandler.DeleteEvent,
      CalendarHandler.GetEventsForDay, CalendarHandler.GetEventsForWeek,
      CalendarHandler.GetEventsForMonth, CalendarService.errOf, failureMessage] at h ⊢ <;>
    (split at h
     next => simp at h
     next _ v hv =>
       split at h
       next => simp at h
       next hchk =>
         split at h
         next => simp at h
         next _ dateTime hp =>
           simp only [Option.some.injEq] at h
           subst h
           simp only [hv, if_neg hchk, hp]
           constructor
           · intro he
             split
             · rfl
             · rename_i heq
               rw [heq] at he
               exact absurd rfl he
           · intro he
             split
             · rename_i heq
               rw [heq] at he
               cases he
             · rfl)

/-- A request that passes the checks of its handler makes the repository receive
exactly one call: the method of the route, with the event built from the
request. -/
theorem Router.handle_valid_calls {σ : Type} (m : Method) (r : CalendarRepository σ)
    (s : σ) (calls : List Call) (log : List LogEntry) (c : Request) (ev : Event)
    (h : Router.input m c = some ev) :
    (Router.handle m ⟨traced r, (s, calls), log⟩ c).2.repo.2 = calls ++ [⟨m, ev⟩] := by
  cases m <;>
    simp only [Router.input, Router.handle, CalendarHandler.CreateEvent,
      CalendarHandler.UpdateEvent, CalendarHandler.DeleteEvent,
      CalendarHandler.GetEventsForDay, CalendarHandler.GetEventsForWeek,
      CalendarHandler.GetEventsForMonth] at h ⊢ <;>
    (split at h
     next => simp at h
     next _ v hv =>
       split at h
       next => simp at h
       next hchk =>
         split at h
         next => simp at h
         next _ dateTime hp =>
           simp only [Option.some.injEq] at h
           subst h
           simp only [hv, if_neg hchk, hp]
           split <;> rename_i heq <;>
             first
             | exact (congrArg (fun x => x.2.repo.2) heq).symm
             | exact (congrArg (fun x => x.2.2.repo.2) heq).symm)

/-- The user id that `queryUserID` lets through is positive. -/
theorem queryUserID_pos (c : Request) (u : Int) (h : queryUserID c = some u) :
    0 < u ∧ ParseInt c.user_id = some u := by
  unfold queryUserID at h
  split at h
  · simp at h
  · rename_i n hn
    split at h
    · simp at h
    · simp only [Option.some.injEq] at h
      subst h
      exact ⟨by omega, hn⟩

/-- The event a handler passes on has a positive user id and a date that
`time.Parse` produced from the date string of the request. -/
theorem Router.input_valid (m : Method) (c : Request) (ev : Event)
    (h : Router.input m c = some ev) :
    0 < ev.UserID ∧
    ((∃ req, c.body = some req ∧ req.UserID = ev.UserID ∧
        ParseDate req.Date = some ev.Date) ∨
      (ParseInt c.user_id = some ev.UserID ∧ ParseDate c.date = some ev.Date)) := by
  cases m <;> simp only [Router.input] at h <;>
    (split at h
     next => simp at h
     next _ v hv =>
       split at h
       next => simp at h
       next hchk =>
         split at h
         next => simp at h
         next _ dateTime hp =>
           simp only [Option.some.injEq] at h
           subst h
           first
           | exact ⟨by simp only [not_or, not_le] at hchk; exact hchk.1,
               Or.inl ⟨v, hv, rfl, hp⟩⟩
           | exact ⟨(queryUserID_pos c v hv).1, Or.inr ⟨(queryUserID_pos c v hv).2, hp⟩⟩)

/-- What `time.Parse` accepts for the layout `2006-01-02` has the form
YYYY-MM-DD: ten characters, dashes in the fifth and eighth place, digits
elsewhere. -/
theorem ParseDate_shape (s : String) (d : Int) (h : ParseDate s = some d) :
    ∃ y1 y2 y3 y4 m1 m2 d1 d2 : Char,
      s.data = [y1, y2, y3, y4, '-', m1, m2, '-', d1, d2] ∧
      [y1, y2, y3, y4, m1, m2, d1, d2].all Char.isDigit = true := by
  unfold ParseDate at h
  split at h
  · rename_i y1 y2 y3 y4 m1 m2 d1 d2 heq
    split at h
    · rename_i hd
      exact ⟨y1, y2, y3, y4, m1, m2, d1, d2, heq, hd⟩
    · simp at h
  · simp at h

/-- C13, as stated, fails: the body `trailingBody`, a JSON object followed by
plain text, is not valid JSON, yet `json.Decode` reads the object and stops, so
the create handler answers 200 and the store receives the event. -/
theorem trailing_text_reaches_store :
    validJSON trailingBody = false ∧
    Decode trailingBody = some ⟨1, "2024-03-01", "A"⟩ ∧
    (CalendarHandler.CreateEvent
        (⟨traced (pgRepository noFaults), (emptyDB, []), []⟩ :
          CalendarService (DB × List Call))
        { body := Decode trailingBody }).1 = ⟨200, .result "Event created successfully"⟩ ∧
    (CalendarHandler.CreateEvent
        (⟨traced (pgRepository noFaults), (emptyDB, []), []⟩ :
          CalendarService (DB × List Call))
        { body := Decode trailingBody }).2.repo.2 = [⟨.CreateEvent, evA⟩] ∧
    (CalendarHandler.CreateEvent
        (⟨traced (pgRepository noFaults), (emptyDB, []), []⟩ :
          CalendarService (DB × List Call))
        { body := Decode trailingBody }).2.repo.1.table = [evA] := by
  decide

/-- A body that does not start with a well-formed JSON value makes `Decode`
return an error. -/
theorem Decode_malformed (raw : String) (h : parseValue 10001 raw.data = none) :
    Decode raw = none := by
  unfold Decode
  rw [h]

/-- What `Decode` accepts starts with a well-formed JSON value: the value
`null`, or an object. -/
theorem Decode_accepts (raw : String) (req : EventRequest) (h : Decode raw = some req) :
    ∃ rest, parseValue 10001 raw.data = some (.null, rest) ∨
      parseValue 10001 raw.data = some (.object, rest) := by
  unfold Decode at h
  split at h
  · cases h
  · rename_i rest _
    exact ⟨rest, Or.inl (by assumption)⟩
  · rename_i rest _
    exact ⟨rest, Or.inr (by assumption)⟩
  · cases h

/-- C13, amended: input that fails the checks never reaches the store. The create
and update handlers answer 400 and leave the service untouched when
`json.Decode` returns an error for the body, the user id is not positive, the
text is empty, the date is empty or `time.Parse` rejects the date; the delete
handler does so when `json.Decode` returns an error, the user id is not
positive, or the date is empty or rejected; the three query handlers do so when
`user_id` does not parse as a base-10 64-bit integer or is not positive, or
`date` is empty or rejected. Conversely a handler makes at most one repository
call, and only with a positive user id and a date that `time.Parse` produced.
`json.Decode` returns an error, and so the three body handlers answer 400, for
every body that does not start with a well-formed JSON value. -/
theorem malformed_input_rejected {σ : Type} (svc : CalendarService σ) (c : Request) :
    ((c.body = none ∨ ∃ req, c.body = some req ∧
        (req.UserID ≤ 0 ∨ req.Event = "" ∨ req.Date = "" ∨ ParseDate req.Date = none)) →
      ((CalendarHandler.CreateEvent svc c).1.code = 400 ∧
        (CalendarHandler.CreateEvent svc c).2 = svc) ∧
      ((CalendarHandler.UpdateEvent svc c).1.code = 400 ∧
        (CalendarHandler.UpdateEvent svc c).2 = svc)) ∧
    ((c.body = none ∨ ∃ req, c.body = some req ∧
        (req.UserID ≤ 0 ∨ req.Date = "" ∨ ParseDate req.Date = none)) →
      (CalendarHandler.DeleteEvent svc c).1.code = 400 ∧
        (CalendarHandler.DeleteEvent svc c).2 = svc) ∧
    ((ParseInt c.user_id = none ∨ (∃ n, ParseInt c.user_id = some n ∧ n ≤ 0) ∨
        c.date = "" ∨ ParseDate c.date = none) →
      ((CalendarHandler.GetEventsForDay svc c).1.code = 400 ∧
        (CalendarHandler.GetEventsForDay svc c).2 = svc) ∧
      ((CalendarHandler.GetEventsForWeek svc c).1.code = 400 ∧
        (CalendarHandler.GetEventsForWeek svc c).2 = svc) ∧
      ((CalendarHandler.GetEventsForMonth svc c).1.code = 400 ∧
        (CalendarHandler.GetEventsForMonth svc c).2 = svc)) ∧
    (∀ (r : CalendarRepository σ) (s : σ) (calls : List Call) (log : List LogEntry)
      (m : Method),
      (Router.handle m ⟨traced r, (s, calls), log⟩ c).2.repo.2 = calls ∨
      ∃ ev, (Router.handle m ⟨traced r, (s, calls), log⟩ c).2.repo.2 =
          calls ++ [⟨m, ev⟩] ∧
        0 < ev.UserID ∧ ∃ str, ParseDate str = some ev.Date) ∧
    (∀ raw : String, parseValue 10001 raw.data = none →
      Decode raw = none ∧
      ((CalendarHandler.CreateEvent svc { c with body := Decode raw }).1.code = 400 ∧
        (CalendarHandler.CreateEvent svc { c with body := Decode raw }).2 = svc) ∧
      ((CalendarHandler.UpdateEvent svc { c with body := Decode raw }).1.code = 400 ∧
        (CalendarHandler.UpdateEvent svc { c with body := Decode raw }).2 = svc) ∧
      ((CalendarHandler.DeleteEvent svc { c with body := Decode raw }).1.code = 400 ∧
        (CalendarHandler.DeleteEvent svc { c with body := Decode raw }).2 = svc)) := by
  have hpost : (c.body = none ∨ ∃ req, c.body = some req ∧
      (req.UserID ≤ 0 ∨ req.Event = "" ∨ req.Date = "" ∨ ParseDate req.Date = none)) →
      Router.input .CreateEvent c = none ∧ Router.input .UpdateEvent c = none := by
    rintro (hb | ⟨req, hb, hbad⟩)
    · simp [Router.input, hb]
    · simp only [Router.input, hb]
      by_cases hchk : req.UserID ≤ 0 ∨ req.Event = "" ∨ req.Date = ""
      · simp [hchk]
      · have hp : ParseDate req.Date = none := by tauto
        simp [hchk, hp]
  have hdel : (c.body = none ∨ ∃ req, c.body = some req ∧
      (req.UserID ≤ 0 ∨ req.Date = "" ∨ ParseDate req.Date = none)) →
      Router.input .DeleteEvent c = none := by
    rintro (hb | ⟨req, hb, hbad⟩)
    · simp [Router.input, hb]
    · simp only [Router.input, hb]
      by_cases hchk : req.UserID ≤ 0 ∨ req.Date = ""
      · simp [hchk]
      · have hp : ParseDate req.Date = none := by tauto
        simp [hchk, hp]
  have hget : (ParseInt c.user_id = none ∨ (∃ n, ParseInt c.user_id = some n ∧ n ≤ 0) ∨
      c.date = "" ∨ ParseDate c.date = none) →
      Router.input .GetEventsForDay c = none ∧ Router.input .GetEventsForWeek c = none ∧
        Router.input .GetEventsForMonth c = none := by
    intro hbad
    have hone : (match queryUserID c with
        | none => (none : Option Event)
        | some userID =>
          if c.date = "" then none
          else
            match ParseDate c.date with
            | none => none
            | some dateTime => some { UserID := userID, Date := dateTime, Event := "" }) =
        none := by
      cases hq : queryUserID c with
      | none => rfl
      | some u =>
        have hu := queryUserID_pos c u hq
        simp only
        by_cases hd : c.date = ""
        · simp [hd]
        · have hp : ParseDate c.date = none := by
            rcases hbad with h | ⟨n, hn, hle⟩ | h | h
            · rw [hu.2] at h
              cases h
            · rw [hu.2] at hn
              cases hn
              omega
            · exact absurd h hd
            · exact h
          simp [hd, hp]
    exact ⟨hone, hone, hone⟩
  refine ⟨fun h => ⟨?_, ?_⟩, fun h => ?_, fun h => ⟨?_, ?_, ?_⟩, ?_, ?_⟩
  rotate_right
  · intro raw hraw
    have hd : Decode raw = none := Decode_malformed raw hraw
    have hin : ∀ m, m = Method.CreateEvent ∨ m = Method.UpdateEvent ∨
        m = Method.DeleteEvent → Router.input m { c with body := Decode raw } = none := by
      intro m hm
      rcases hm with rfl | rfl | rfl <;> simp [Router.input, hd]
    exact ⟨hd,
      Router.handle_invalid .CreateEvent svc _ (hin _ (Or.inl rfl)),
      Router.handle_invalid .UpdateEvent svc _ (hin _ (Or.inr (Or.inl rfl))),
      Router.handle_invalid .DeleteEvent svc _ (hin _ (Or.inr (Or.inr rfl)))⟩
  · exact Router.handle_invalid .CreateEvent svc c (hpost h).1
  · exact Router.handle_invalid .UpdateEvent svc c (hpost h).2
  · exact Router.handle_invalid .DeleteEvent svc c (hdel h)
  · exact Router.handle_invalid .GetEventsForDay svc c (hget h).1
  · exact Router.handle_invalid .GetEventsForWeek svc c (hget h).2.1
  · exact Router.handle_invalid .GetEventsForMonth svc c (hget h).2.2
  · intro r s calls log m
    cases hin : Router.input m c with
    | none =>
      left
      rw [(Router.handle_invalid m _ c hin).2]
    | some ev =>
      right
      refine ⟨ev, Router.handle_valid_calls m r s calls log c ev hin,
        (Router.input_valid m c ev hin).1, ?_⟩
      rcases (Router.input_valid m c ev hin).2 with ⟨req, _, _, hp⟩ | ⟨_, hp⟩
      · exact ⟨_, hp⟩
      · exact ⟨_, hp⟩

/-- Witness for the amended C13: a create request dated 2024-13-01, a day query
without `user_id` and a create request whose body breaks off inside the object
are answered with 400, and the PostgreSQL repository behind the service
receives no call. -/
theorem malformed_input_rejected_witness :
    ((CalendarHandler.CreateEvent
        (⟨traced (pgRepository noFaults), (sampleDB, []), []⟩ :
          CalendarService (DB × List Call))
        { body := some ⟨1, "2024-13-01", "A"⟩ }).1.code = 400 ∧
      (CalendarHandler.CreateEvent
        (⟨traced (pgRepository noFaults), (sampleDB, []), []⟩ :
          CalendarService (DB × List Call))
        { body := some ⟨1, "2024-13-01", "A"⟩ }).2.repo = (sampleDB, [])) ∧
    (CalendarHandler.GetEventsForDay
        (⟨traced (pgRepository noFaults), (sampleDB, []), []⟩ :
          CalendarService (DB × List Call))
        { date := "2024-03-01" }).1.code = 400 ∧
    (Decode "\x7b\"user_id\":1," = none ∧
      (CalendarHandler.CreateEvent
        (⟨traced (pgRepository noFaults), (sampleDB, []), []⟩ :
          CalendarService (DB × List Call))
        { body := Decode "\x7b\"user_id\":1," }).1.code = 400) :=
  ⟨⟨((malformed_input_rejected
        (⟨traced (pgRepository noFaults), (sampleDB, []), []⟩ :
          CalendarService (DB × List Call))
        { body := some ⟨1, "2024-13-01", "A"⟩ }).1
        (Or.inr ⟨⟨1, "2024-13-01", "A"⟩, rfl, by decide⟩)).1.1,
     congrArg CalendarService.repo ((malformed_input_rejected
        (⟨traced (pgRepository noFaults), (sampleDB, []), []⟩ :
          CalendarService (DB × List Call))
        { body := some ⟨1, "2024-13-01", "A"⟩ }).1
        (Or.inr ⟨⟨1, "2024-13-01", "A"⟩, rfl, by decide⟩)).1.2⟩,
   ((malformed_input_rejected
        (⟨traced (pgRepository noFaults), (sampleDB, []), []⟩ :
          CalendarService (DB × List Call))
        { date := "2024-03-01" }).2.2.1 (Or.inl (by decide))).1.1,
   ⟨((malformed_input_rejected
        (⟨traced (pgRepository noFaults), (sampleDB, []), []⟩ :
          CalendarService (DB × List Call))
        {}).2.2.2.2 "\x7b\"user_id\":1," (by decide)).1,
    ((malformed_input_rejected
        (⟨traced (pgRepository noFaults), (sampleDB, []), []⟩ :
          CalendarService (DB × List Call))
        {}).2.2.2.2 "\x7b\"user_id\":1," (by decide)).2.1.1⟩⟩

/-- C14: store failures leak no backend detail. For every handler and every
request that passes its checks, whenever the service returns an error, whatever
the error, whatever the repository and its state, the answer is the same: status
503 with the fixed message of the handler. -/
theorem store_failure_response {σ1 σ2 : Type} (m : Method) (svc1 : CalendarService σ1)
    (svc2 : CalendarService σ2) (c : Request) (ev : Event) (e1 e2 : Error)
    (hc : Router.input m c = some ev)
    (h1 : svc1.errOf m ev = some e1) (h2 : svc2.errOf m ev = some e2) :
    (Router.handle m svc1 c).1 = (Router.handle m svc2 c).1 ∧
    (Router.handle m svc1 c).1 = ⟨503, .error (failureMessage m)⟩ := by
  have r1 := (Router.handle_valid m svc1 c ev hc).1 (by rw [h1]; simp)
  have r2 := (Router.handle_valid m svc2 c ev hc).1 (by rw [h2]; simp)
  exact ⟨r1.trans r2.symm, r1⟩

/-- Witness for C14: the same create request against a backend whose `INSERT`
fails and against one whose `BeginTx` fails, with different driver errors. -/
theorem store_failure_response_witness :
    (CalendarHandler.CreateEvent
        ⟨pgRepository { stmt := some (.driver "duplicate key") }, sampleDB, []⟩
        { body := some ⟨1, "2024-03-01", "A"⟩ }).1 =
      (CalendarHandler.CreateEvent
        ⟨pgRepository { begin := some (.driver "connection refused") }, emptyDB, []⟩
        { body := some ⟨1, "2024-03-01", "A"⟩ }).1 ∧
    (CalendarHandler.CreateEvent
        ⟨pgRepository { stmt := some (.driver "duplicate key") }, sampleDB, []⟩
        { body := some ⟨1, "2024-03-01", "A"⟩ }).1 =
      ⟨503, .error "Failed to create event"⟩ :=
  store_failure_response .CreateEvent
    ⟨pgRepository { stmt := some (.driver "duplicate key") }, sampleDB, []⟩
    ⟨pgRepository { begin := some (.driver "connection refused") }, emptyDB, []⟩
    { body := some ⟨1, "2024-03-01", "A"⟩ } ⟨1, mar01, "A"⟩
    (.wrapf "failed to create event" (.driver "duplicate key"))
    (.wrapf "failed to begin transaction" (.driver "connection refused"))
    (by decide) (by decide) (by decide)

end Calendar
